import Mathlib

/-!
Verification of the Planterbox ESP32 firmware control loop
(src/esp32-firmware/src/main.cpp) against its natural-language
specification.

The operational part of `loop()` (the block guarded by
`!config_mode && WiFi.status() == WL_CONNECTED`) is embedded as a pure
transition function on an explicit controller state.  Machine integers
(`unsigned long` = uint32 on ESP32) are modelled as `Nat` with explicit
`% 2^32`; `float` sensor arithmetic is modelled over `ℚ` (the claims
concern branch structure and exact constants, not rounding).  Each loop
iteration ("tick") carries the clock value observed at the top of the
operational block (`tAdv`, used by the dosing state machines) and the
clock value observed when the HTTP response is applied (`tApp`); the
sensor reads and the network call between the two advance the clock, so
`tAdv ≤ tApp`.  A tick with `connected = false` models an iteration in
which the operational block is skipped entirely (config mode or Wi-Fi
loss): the code then performs no state-machine update at all.
-/

namespace Planterbox

/-- `2^32`: modulus of `unsigned long` arithmetic on the ESP32. -/
def U32 : Nat := 4294967296

/-- Unsigned 32-bit subtraction `a - b`, as computed by the C code on
`unsigned long` values (`millis() - start`). -/
def wsub (a b : Nat) : Nat := (U32 + a % U32 - b % U32) % U32

/-- `const int WATER_THRESHOLD = 680;` -/
def WATER_THRESHOLD : Int := 680

/-- `const float TARGET_MIN_CM = 25.0f;` -/
def TARGET_MIN_CM : ℚ := 25

/-- `const float TARGET_MAX_CM = 30.0f;` -/
def TARGET_MAX_CM : ℚ := 30

/-- `const int LIGHT_ADJUST_STEPS = 5;` -/
def LIGHT_ADJUST_STEPS : Nat := 5

/-- `const unsigned long LIGHT_ADJUST_INTERVAL_MS = 1000;` -/
def LIGHT_ADJUST_INTERVAL_MS : Nat := 1000

/-- `unsigned long dosingDuration = 2000` (never reassigned). -/
def dosingDuration : Nat := 2000

/-- `unsigned long delayDuration = 2000` (never reassigned). -/
def delayDuration : Nat := 2000

/-- `enum PpmDosingState { PPM_IDLE, PPM_DOSING_A, PPM_DELAYING, PPM_DOSING_B };` -/
inductive PpmDosingState
  | PPM_IDLE
  | PPM_DOSING_A
  | PPM_DELAYING
  | PPM_DOSING_B
  deriving DecidableEq, Repr

/-- `enum PhDosingState { PH_IDLE, PH_DOSING_UP, PH_DOSING_DOWN };` -/
inductive PhDosingState
  | PH_IDLE
  | PH_DOSING_UP
  | PH_DOSING_DOWN
  deriving DecidableEq, Repr

open PpmDosingState PhDosingState

/-- The mutable globals of the dosing subsystem together with the pump
output pins and the grow-light PWM duty.  Pin booleans: `true` = HIGH. -/
structure DoseSt where
  ppmState : PpmDosingState
  phState : PhDosingState
  ppmStateChangeTime : Nat
  phStateChangeTime : Nat
  globalLockoutUntil : Nat
  phUpPin : Bool
  phDownPin : Bool
  ppmAPin : Bool
  ppmBPin : Bool
  lightPwm : Int
  deriving DecidableEq, Repr

/-- `bool isLockedOut() { return millis() < globalLockoutUntil; }` -/
def isLockedOut (now : Nat) (st : DoseSt) : Bool :=
  decide (now % U32 < st.globalLockoutUntil)

/-- State after `setup()`: `stopAllPumps()` drives every pump pin LOW,
both machines start `IDLE`, all timers zero, PWM channel at 0. -/
def init : DoseSt :=
  { ppmState := PPM_IDLE
    phState := PH_IDLE
    ppmStateChangeTime := 0
    phStateChangeTime := 0
    globalLockoutUntil := 0
    phUpPin := false
    phDownPin := false
    ppmAPin := false
    ppmBPin := false
    lightPwm := 0 }

/-- The PPM else-if chain at the top of the operational block:
`PPM_DOSING_A → PPM_DELAYING → PPM_DOSING_B → PPM_IDLE`, each edge
guarded by `millis()-ppmStateChangeTime >= duration`. -/
def advancePpm (st : DoseSt) (now : Nat) : DoseSt :=
  if st.ppmState = PPM_DOSING_A ∧ wsub now st.ppmStateChangeTime ≥ dosingDuration then
    { st with ppmAPin := false, ppmState := PPM_DELAYING, ppmStateChangeTime := now % U32 }
  else if st.ppmState = PPM_DELAYING ∧ wsub now st.ppmStateChangeTime ≥ delayDuration then
    { st with ppmBPin := true, ppmState := PPM_DOSING_B, ppmStateChangeTime := now % U32 }
  else if st.ppmState = PPM_DOSING_B ∧ wsub now st.ppmStateChangeTime ≥ dosingDuration then
    { st with ppmBPin := false, ppmState := PPM_IDLE }
  else st

/-- `if (phState==PH_DOSING_UP && millis()-phStateChangeTime>=dosingDuration)`. -/
def advancePhUp (st : DoseSt) (now : Nat) : DoseSt :=
  if st.phState = PH_DOSING_UP ∧ wsub now st.phStateChangeTime ≥ dosingDuration then
    { st with phUpPin := false, phState := PH_IDLE }
  else st

/-- `if (phState==PH_DOSING_DOWN && millis()-phStateChangeTime>=dosingDuration)`. -/
def advancePhDown (st : DoseSt) (now : Nat) : DoseSt :=
  if st.phState = PH_DOSING_DOWN ∧ wsub now st.phStateChangeTime ≥ dosingDuration then
    { st with phDownPin := false, phState := PH_IDLE }
  else st

/-- The complete "Dosing state machines" section of `loop()`: the PPM
chain, then the two independent pH checks, in source order. -/
def advance (st : DoseSt) (now : Nat) : DoseSt :=
  advancePhDown (advancePhUp (advancePpm st now) now) now

/-- Arduino `constrain(amt, low, high)`. -/
def constrain (amt low high : Int) : Int :=
  if amt < low then low else if amt > high then high else amt

/-- `controlGrowLight`: clamp the commanded brightness to `0..255`
(the value written to the 8-bit PWM channel). -/
def controlGrowLight (brightness : Int) : Int :=
  constrain brightness 0 255

/-- The directive fields extracted from a parsed response document. -/
structure Directive where
  light : Int
  phUp : Bool
  phDn : Bool
  ppmA : Bool
  ppmB : Bool
  lockoutMs : Nat
  deriving DecidableEq, Repr

/-- A parsed JSON response body: each field is `none` when the key is
absent from the document (or not of the expected type). -/
structure RespDoc where
  light : Option Int
  ph_up_pump : Option Bool
  ph_down_pump : Option Bool
  ppm_a_pump : Option Bool
  ppm_b_pump : Option Bool
  lockout_ms : Option Nat
  deriving DecidableEq, Repr

/-- The `doc["…"]|default` extraction block of `loop()`.  ArduinoJson's
`|` operator substitutes the default only when the key is absent or not
convertible; a present value — including `0` — is used as is. -/
def decodeDirective (doc : RespDoc) : Directive :=
  { light := doc.light.getD 0
    phUp := doc.ph_up_pump.getD false
    phDn := doc.ph_down_pump.getD false
    ppmA := doc.ppm_a_pump.getD false
    ppmB := doc.ppm_b_pump.getD false
    lockoutMs := doc.lockout_ms.getD 120000 }

/-- Application of a decoded directive: `controlGrowLight(light)` first
(unconditionally), then — only when `!isLockedOut()` — the three
mutually exclusive start edges in source order (pH up, pH down, PPM). -/
def applyDirective (st : DoseSt) (now : Nat) (d : Directive) : DoseSt :=
  let st := { st with lightPwm := controlGrowLight d.light }
  if isLockedOut now st then st
  else if d.phUp ∧ st.phState = PH_IDLE then
    { st with phState := PH_DOSING_UP, phStateChangeTime := now % U32, phUpPin := true,
              globalLockoutUntil := (now + d.lockoutMs) % U32 }
  else if d.phDn ∧ st.phState = PH_IDLE then
    { st with phState := PH_DOSING_DOWN, phStateChangeTime := now % U32, phDownPin := true,
              globalLockoutUntil := (now + d.lockoutMs) % U32 }
  else if d.ppmA ∧ d.ppmB ∧ st.ppmState = PPM_IDLE then
    { st with ppmState := PPM_DOSING_A, ppmStateChangeTime := now % U32, ppmAPin := true,
              globalLockoutUntil :=
                (now + dosingDuration + delayDuration + dosingDuration + d.lockoutMs) % U32 }
  else st

/-- The network section of the operational block: the body is parsed and
the directive applied only under `if(code>0)` (a positive `HTTPClient`
POST result, i.e. any received HTTP status) and a successful
`deserializeJson`; otherwise the state is left untouched. -/
def networkStep (st : DoseSt) (now : Nat) (code : Int) (parsed : Option RespDoc) : DoseSt :=
  if code > 0 then
    match parsed with
    | some doc => applyDirective st now (decodeDirective doc)
    | none => st
  else st

/-- One iteration of `loop()` as seen by the dosing subsystem.
`connected = false`: the whole operational block is skipped.
`resp = none`: `http.begin` failed, so no POST result is processed. -/
structure Tick where
  connected : Bool
  tAdv : Nat
  tApp : Nat
  resp : Option (Int × Option RespDoc)
  deriving DecidableEq, Repr

/-- Execute one tick: state machines advance at `tAdv`, the network
result (if any) is applied at `tApp`. -/
def tick (st : DoseSt) (k : Tick) : DoseSt :=
  if k.connected then
    let st1 := advance st k.tAdv
    match k.resp with
    | none => st1
    | some (code, parsed) => networkStep st1 k.tApp code parsed
  else st

/-- Run a sequence of ticks from a given state. -/
def runFrom (st : DoseSt) (ks : List Tick) : DoseSt :=
  ks.foldl tick st

/-- Run a sequence of ticks from the post-`setup()` state. -/
def run (ks : List Tick) : DoseSt :=
  runFrom init ks

/-- A JSON value written into the `sensorData` document. -/
inductive JVal
  | num (q : ℚ)
  | jbool (b : Bool)
  deriving DecidableEq, Repr

/-- A DHT11 read: `none` models a `NaN` result of
`dht.readHumidity()` / `dht.readTemperature()`. -/
structure DhtReading where
  humidity : Option ℚ
  temperature : Option ℚ
  deriving DecidableEq, Repr

/-- `readDHT()`: NaN fields are replaced by `0`, both values are written
into `sensorData`, and `currentTempC = t` unconditionally (the sentinel
included).  Returns the appended document fields and the new
`currentTempC`; the previous `currentTempC` is taken as an argument to
make its fate explicit. -/
def readDHT (r : DhtReading) (currentTempC : ℚ) : List (String × JVal) × ℚ :=
  let h := match r.humidity with | none => 0 | some h => h
  let t := match r.temperature with | none => 0 | some t => t
  ([("temperature", JVal.num t), ("humidity", JVal.num h)], t)

/-- `readUltrasonic()`: distance `duration * 0.034 / 2` cm; only values
strictly between 0 and 400 update `currentDistanceCm`; the (possibly
stale) `currentDistanceCm` is written into `sensorData`. -/
def readUltrasonic (duration : Int) (currentDistanceCm : ℚ) : List (String × JVal) × ℚ :=
  let dist : ℚ := (duration : ℚ) * (34 / 1000) / 2
  let d := if 0 < dist ∧ dist < 400 then dist else currentDistanceCm
  ([("distance", JVal.num d)], d)

/-- `readPpmSensor()`: average of the 10 ADC samples, voltage
`avg * 3.3 / 4096`, raw ppm `420 * v`, divided by the temperature
compensation factor `1 + 0.02 * (currentTempC - 25)`. -/
def readPpmSensor (samples : List Int) (currentTempC : ℚ) : List (String × JVal) :=
  let sum : Int := samples.sum
  let avg : ℚ := (sum : ℚ) / 10
  let v : ℚ := avg * (33 / 10) / 4096
  let ppm : ℚ := 420 * v
  let comp : ℚ := 1 + (2 / 100) * (currentTempC - 25)
  [("ppm", JVal.num (ppm / comp))]

/-- `readPhSensor()`: average of the 30 ADC samples, voltage
`avg * 3.3 / 4095`, calibration `ph = 7 - ((v - 2.5) / 0.18)`. -/
def readPhSensor (samples : List Int) : List (String × JVal) :=
  let sum : Int := samples.sum
  let avg : ℚ := (sum : ℚ) / 30
  let v : ℚ := avg * (33 / 10) / 4095
  let ph : ℚ := 7 - ((v - (5 / 2)) / (18 / 100))
  [("ph", JVal.num ph)]

/-- `readWaterSensor()`: single ADC read; writes the key
`"water_detected"` with value `adc > WATER_THRESHOLD`. -/
def readWaterSensor (adc : Int) : List (String × JVal) :=
  [("water_detected", JVal.jbool (decide (adc > WATER_THRESHOLD)))]

/-- The raw sensor inputs consumed by one cycle's five readers. -/
structure SensorInputs where
  dht : DhtReading
  echoDuration : Int
  ppmSamples : List Int
  phSamples : List Int
  waterAdc : Int
  deriving DecidableEq, Repr

/-- The "Sensor update" section of `loop()`: `sensorData.clear()` then
the five readers in source order.  Returns the full document (whose
serialization is the POST body) and the updated `currentTempC` and
`currentDistanceCm` globals. -/
def sensorCycle (inp : SensorInputs) (currentTempC currentDistanceCm : ℚ) :
    List (String × JVal) × ℚ × ℚ :=
  let dhtRes := readDHT inp.dht currentTempC
  let usRes := readUltrasonic inp.echoDuration currentDistanceCm
  let doc := dhtRes.1 ++ usRes.1 ++ readPpmSensor inp.ppmSamples dhtRes.2
    ++ readPhSensor inp.phSamples ++ readWaterSensor inp.waterAdc
  (doc, dhtRes.2, usRes.2)

/-- A stepper half-step command: `step(true)` (raise) or `step(false)`
(lower). -/
inductive StepDir
  | up
  | down
  deriving DecidableEq, Repr

/-- `adjustLightHeightAuto()`: throttle on
`now - lastLightAdjustTime < LIGHT_ADJUST_INTERVAL_MS` (unsigned);
otherwise record `now`, then emit `LIGHT_ADJUST_STEPS` raise steps and
`stop()` when `d < TARGET_MIN_CM`, the same number of lower steps and
`stop()` when `d > TARGET_MAX_CM`, and nothing otherwise.  Result:
(new `lastLightAdjustTime`, emitted steps, whether `stop()` ran). -/
def adjustLightHeightAuto (lastLightAdjustTime now : Nat) (d : ℚ) :
    Nat × List StepDir × Bool :=
  if wsub now lastLightAdjustTime < LIGHT_ADJUST_INTERVAL_MS then
    (lastLightAdjustTime, [], false)
  else
    let last := now % U32
    if d < TARGET_MIN_CM then
      (last, List.replicate LIGHT_ADJUST_STEPS StepDir.up, true)
    else if d > TARGET_MAX_CM then
      (last, List.replicate LIGHT_ADJUST_STEPS StepDir.down, true)
    else
      (last, [], false)

/-- `dosingDuration + delayDuration + dosingDuration`: the nominal length
of a full PPM A → gap → B sequence. -/
def ppmSeqTotal : Nat :=
  dosingDuration + delayDuration + dosingDuration

/-- Trace regularity: starting from anchor `t`, each tick advances the
machines at `tAdv` with `t ≤ tAdv ≤ t + P` (the cycle period bound) and
applies the directive at `tApp` with `tAdv ≤ tApp ≤ tAdv + Q` (the
within-cycle clock advance bound: sensor reads plus the network call);
all clock values stay below `2^32` (no wrap inside the window).  The
next anchor is `tApp`. -/
def chainOk (P Q : Nat) : Nat → List Tick → Bool
  | _, [] => true
  | t, k :: ks =>
    decide (t ≤ k.tAdv) && decide (k.tAdv ≤ t + P) && decide (k.tAdv ≤ k.tApp)
      && decide (k.tApp ≤ k.tAdv + Q) && decide (k.tApp < U32) && chainOk P Q k.tApp ks

/-- Every tick of the trace runs the operational block (Wi-Fi up). -/
def allConnected (ks : List Tick) : Bool :=
  ks.all (fun k => k.connected)

/-- The anchor left after a trace: the last tick's `tApp`. -/
def lastAnchor (t : Nat) : List Tick → Nat
  | [] => t
  | k :: ks => lastAnchor k.tApp ks

/-- Pin/state correspondence: each pump output pin is HIGH exactly when
its machine is in the matching dosing phase. -/
def PinsInv (st : DoseSt) : Prop :=
  (st.phUpPin = true ↔ st.phState = PH_DOSING_UP)
    ∧ (st.phDownPin = true ↔ st.phState = PH_DOSING_DOWN)
    ∧ (st.ppmAPin = true ↔ st.ppmState = PPM_DOSING_A)
    ∧ (st.ppmBPin = true ↔ st.ppmState = PPM_DOSING_B)

/-- Mid-sequence invariant for a PPM run entered (`PPM_DOSING_A`) at
time `t0`, with per-transition slack `S` and anchor `t`: the phase entry
times drift by at most one `S` per completed transition, and the anchor
stays below the pending deadline plus `Q`. -/
def PpmPhaseInv (t0 S Q : Nat) (st : DoseSt) (t : Nat) : Prop :=
  (st.ppmState = PPM_DOSING_A ∧ st.ppmStateChangeTime = t0
      ∧ t0 ≤ t ∧ t < t0 + dosingDuration + Q)
    ∨ (st.ppmState = PPM_DELAYING
        ∧ t0 + dosingDuration ≤ st.ppmStateChangeTime
        ∧ st.ppmStateChangeTime < t0 + dosingDuration + S
        ∧ st.ppmStateChangeTime ≤ t ∧ t < st.ppmStateChangeTime + delayDuration + Q)
    ∨ (st.ppmState = PPM_DOSING_B
        ∧ t0 + dosingDuration + delayDuration ≤ st.ppmStateChangeTime
        ∧ st.ppmStateChangeTime < t0 + dosingDuration + delayDuration + 2 * S
        ∧ st.ppmStateChangeTime ≤ t ∧ t < st.ppmStateChangeTime + dosingDuration + Q)

/-- Cross-machine invariant with slack `S` and within-cycle bound `Q`:
at most one machine is active, and whenever a machine is active the
global lockout deadline still covers the remainder of its activity
(with enough margin for the drift the trace can add). -/
def CrossInv (S Q : Nat) (st : DoseSt) (t : Nat) : Prop :=
  st.globalLockoutUntil < U32
    ∧ (st.phState ≠ PH_IDLE →
        st.ppmState = PPM_IDLE ∧ st.phStateChangeTime ≤ t
          ∧ st.phStateChangeTime + dosingDuration + Q ≤ st.globalLockoutUntil)
    ∧ (st.ppmState = PPM_DOSING_A →
        st.phState = PH_IDLE ∧ st.ppmStateChangeTime ≤ t
          ∧ t < st.ppmStateChangeTime + dosingDuration + Q
          ∧ st.ppmStateChangeTime + ppmSeqTotal + 2 * S + Q ≤ st.globalLockoutUntil)
    ∧ (st.ppmState = PPM_DELAYING →
        st.phState = PH_IDLE ∧ st.ppmStateChangeTime ≤ t
          ∧ t < st.ppmStateChangeTime + delayDuration + Q
          ∧ st.ppmStateChangeTime + delayDuration + dosingDuration + S + Q
              ≤ st.globalLockoutUntil)
    ∧ (st.ppmState = PPM_DOSING_B →
        st.phState = PH_IDLE ∧ st.ppmStateChangeTime ≤ t
          ∧ t < st.ppmStateChangeTime + dosingDuration + Q
          ∧ st.ppmStateChangeTime + dosingDuration + Q ≤ st.globalLockoutUntil)

/-- Per-tick directive condition used by the cross-machine exclusivity
analysis: any directive carried by the tick has a `lockoutMs` of at
least `dosingDuration + Q` and at least `2(P+Q) + Q`, and arming it at
`tApp` does not wrap the 32-bit deadline. -/
def dirOk (P Q : Nat) (k : Tick) : Bool :=
  match k.resp with
  | some (_, some doc) =>
      decide (dosingDuration + Q ≤ (decodeDirective doc).lockoutMs)
        && decide (2 * (P + Q) + Q ≤ (decodeDirective doc).lockoutMs)
        && decide (k.tApp + ppmSeqTotal + (decodeDirective doc).lockoutMs < U32)
  | _ => true

/-! ## Clock arithmetic lemmas -/

theorem U32_pos : 0 < U32 := by decide

/-- Unsigned 32-bit `a - b` computes the true elapsed time whenever that
elapsed time is below `2^32`, regardless of how often the raw clock has
wrapped. -/
theorem wsub_eq_sub {a b : Nat} (hba : b ≤ a) (h : a - b < U32) : wsub a b = a - b := by
  simp only [wsub, U32] at *
  omega

/-- `wsub` only depends on its second argument mod `2^32`. -/
theorem wsub_mod_right (a b : Nat) : wsub a (b % U32) = wsub a b := by
  simp only [wsub, U32]
  omega

/-! ## Componentwise facts about the advance sub-steps -/

theorem advancePhUp_ppm_fields (st : DoseSt) (now : Nat) :
    (advancePhUp st now).ppmState = st.ppmState
      ∧ (advancePhUp st now).ppmStateChangeTime = st.ppmStateChangeTime
      ∧ (advancePhUp st now).ppmAPin = st.ppmAPin
      ∧ (advancePhUp st now).ppmBPin = st.ppmBPin
      ∧ (advancePhUp st now).globalLockoutUntil = st.globalLockoutUntil
      ∧ (advancePhUp st now).phDownPin = st.phDownPin
      ∧ (advancePhUp st now).lightPwm = st.lightPwm := by
  unfold advancePhUp
  split <;> exact ⟨rfl, rfl, rfl, rfl, rfl, rfl, rfl⟩

theorem advancePhDown_ppm_fields (st : DoseSt) (now : Nat) :
    (advancePhDown st now).ppmState = st.ppmState
      ∧ (advancePhDown st now).ppmStateChangeTime = st.ppmStateChangeTime
      ∧ (advancePhDown st now).ppmAPin = st.ppmAPin
      ∧ (advancePhDown st now).ppmBPin = st.ppmBPin
      ∧ (advancePhDown st now).globalLockoutUntil = st.globalLockoutUntil
      ∧ (advancePhDown st now).phUpPin = st.phUpPin
      ∧ (advancePhDown st now).lightPwm = st.lightPwm := by
  unfold advancePhDown
  split <;> exact ⟨rfl, rfl, rfl, rfl, rfl, rfl, rfl⟩

theorem advancePpm_ph_fields (st : DoseSt) (now : Nat) :
    (advancePpm st now).phState = st.phState
      ∧ (advancePpm st now).phStateChangeTime = st.phStateChangeTime
      ∧ (advancePpm st now).phUpPin = st.phUpPin
      ∧ (advancePpm st now).phDownPin = st.phDownPin
      ∧ (advancePpm st now).globalLockoutUntil = st.globalLockoutUntil
      ∧ (advancePpm st now).lightPwm = st.lightPwm := by
  unfold advancePpm
  split
  · exact ⟨rfl, rfl, rfl, rfl, rfl, rfl⟩
  · split
    · exact ⟨rfl, rfl, rfl, rfl, rfl, rfl⟩
    · split
      · exact ⟨rfl, rfl, rfl, rfl, rfl, rfl⟩
      · exact ⟨rfl, rfl, rfl, rfl, rfl, rfl⟩

/-- The composed advance leaves every PPM-side field exactly as
`advancePpm` left it. -/
theorem advance_ppm_fields (st : DoseSt) (now : Nat) :
    (advance st now).ppmState = (advancePpm st now).ppmState
      ∧ (advance st now).ppmStateChangeTime = (advancePpm st now).ppmStateChangeTime
      ∧ (advance st now).ppmAPin = (advancePpm st now).ppmAPin
      ∧ (advance st now).ppmBPin = (advancePpm st now).ppmBPin
      ∧ (advance st now).globalLockoutUntil = (advancePpm st now).globalLockoutUntil := by
  unfold advance
  have h1 := advancePhUp_ppm_fields (advancePpm st now) now
  have h2 := advancePhDown_ppm_fields (advancePhUp (advancePpm st now) now) now
  exact ⟨h2.1.trans h1.1, h2.2.1.trans h1.2.1, h2.2.2.1.trans h1.2.2.1,
    h2.2.2.2.1.trans h1.2.2.2.1, h2.2.2.2.2.1.trans h1.2.2.2.2.1⟩

/-! ## Pin/state correspondence invariant -/

theorem pinsInv_init : PinsInv init := by
  simp [PinsInv, init]

theorem pinsInv_advancePpm {st : DoseSt} (now : Nat) (h : PinsInv st) :
    PinsInv (advancePpm st now) := by
  obtain ⟨h1, h2, h3, h4⟩ := h
  unfold advancePpm
  split
  · next hc =>
    obtain ⟨hA, -⟩ := hc
    exact ⟨h1, h2, by simp, by simp [h4, hA]⟩
  · split
    · next hc =>
      obtain ⟨hD, -⟩ := hc
      exact ⟨h1, h2, by simp [h3, hD], by simp⟩
    · split
      · next hc =>
        obtain ⟨hB, -⟩ := hc
        exact ⟨h1, h2, by simp [h3, hB], by simp⟩
      · exact ⟨h1, h2, h3, h4⟩

theorem pinsInv_advancePhUp {st : DoseSt} (now : Nat) (h : PinsInv st) :
    PinsInv (advancePhUp st now) := by
  obtain ⟨h1, h2, h3, h4⟩ := h
  unfold advancePhUp
  split
  · next hc =>
    obtain ⟨hU, -⟩ := hc
    exact ⟨by simp, by simp [h2, hU], h3, h4⟩
  · exact ⟨h1, h2, h3, h4⟩

theorem pinsInv_advancePhDown {st : DoseSt} (now : Nat) (h : PinsInv st) :
    PinsInv (advancePhDown st now) := by
  obtain ⟨h1, h2, h3, h4⟩ := h
  unfold advancePhDown
  split
  · next hc =>
    obtain ⟨hD, -⟩ := hc
    exact ⟨by simp [h1, hD], by simp, h3, h4⟩
  · exact ⟨h1, h2, h3, h4⟩

theorem pinsInv_advance {st : DoseSt} (now : Nat) (h : PinsInv st) :
    PinsInv (advance st now) :=
  pinsInv_advancePhDown now (pinsInv_advancePhUp now (pinsInv_advancePpm now h))

theorem pinsInv_applyDirective {st : DoseSt} (now : Nat) (d : Directive) (h : PinsInv st) :
    PinsInv (applyDirective st now d) := by
  obtain ⟨h1, h2, h3, h4⟩ := h
  simp only [applyDirective]
  split
  · exact ⟨h1, h2, h3, h4⟩
  · split
    · next hc =>
      obtain ⟨-, hI⟩ := hc
      exact ⟨by simp, by simp [h2, hI], h3, h4⟩
    · split
      · next hc =>
        obtain ⟨-, hI⟩ := hc
        exact ⟨by simp [h1, hI], by simp, h3, h4⟩
      · split
        · next hc =>
          obtain ⟨-, -, hI⟩ := hc
          exact ⟨h1, h2, by simp, by simp [h4, hI]⟩
        · exact ⟨h1, h2, h3, h4⟩

theorem pinsInv_networkStep {st : DoseSt} (now : Nat) (code : Int)
    (parsed : Option RespDoc) (h : PinsInv st) :
    PinsInv (networkStep st now code parsed) := by
  unfold networkStep
  split
  · match parsed with
    | some doc => exact pinsInv_applyDirective now (decodeDirective doc) h
    | none => exact h
  · exact h

theorem pinsInv_tick {st : DoseSt} (k : Tick) (h : PinsInv st) : PinsInv (tick st k) := by
  unfold tick
  split
  · match hr : k.resp with
    | none => exact pinsInv_advance k.tAdv h
    | some (code, parsed) =>
      exact pinsInv_networkStep k.tApp code parsed (pinsInv_advance k.tAdv h)
  · exact h

theorem pinsInv_runFrom {st : DoseSt} (ks : List Tick) (h : PinsInv st) :
    PinsInv (runFrom st ks) := by
  induction ks generalizing st with
  | nil => exact h
  | cons k ks ih => exact ih (pinsInv_tick k h)

theorem pinsInv_run (ks : List Tick) : PinsInv (run ks) :=
  pinsInv_runFrom ks pinsInv_init

/-! ## C2 — pump pin / state correspondence -/

/-- C2 confirmed: in every state reachable from the post-`setup()`
state by any sequence of loop iterations (connected or not, arbitrary
responses), each pH pump pin is HIGH iff `phState` is the matching
dosing variant — so at most one pH pin is HIGH — and `PPM_A`/`PPM_B`
are HIGH iff `ppmState` is `PPM_DOSING_A`/`PPM_DOSING_B`, both LOW in
`PPM_IDLE` and `PPM_DELAYING`. -/
theorem pump_pin_state_correspondence (ks : List Tick) :
    ((run ks).phUpPin = true ↔ (run ks).phState = PH_DOSING_UP)
      ∧ ((run ks).phDownPin = true ↔ (run ks).phState = PH_DOSING_DOWN)
      ∧ ¬((run ks).phUpPin = true ∧ (run ks).phDownPin = true)
      ∧ ((run ks).ppmAPin = true ↔ (run ks).ppmState = PPM_DOSING_A)
      ∧ ((run ks).ppmBPin = true ↔ (run ks).ppmState = PPM_DOSING_B)
      ∧ ¬((run ks).ppmAPin = true ∧ (run ks).ppmBPin = true)
      ∧ ((run ks).ppmState = PPM_IDLE ∨ (run ks).ppmState = PPM_DELAYING →
          (run ks).ppmAPin = false ∧ (run ks).ppmBPin = false) := by
  obtain ⟨h1, h2, h3, h4⟩ := pinsInv_run ks
  refine ⟨h1, h2, ?_, h3, h4, ?_, ?_⟩
  · rintro ⟨a, b⟩
    rw [h1] at a
    rw [h2] at b
    rw [a] at b
    cases b
  · rintro ⟨a, b⟩
    rw [h3] at a
    rw [h4] at b
    rw [a] at b
    cases b
  · intro hid
    constructor
    · cases ha : (run ks).ppmAPin
      · rfl
      · rw [h3] at ha
        rcases hid with hid | hid <;> rw [ha] at hid <;> cases hid
    · cases hb : (run ks).ppmBPin
      · rfl
      · rw [h4] at hb
        rcases hid with hid | hid <;> rw [hb] at hid <;> cases hid

/-- C2 witness: the last conjunct instantiated at the empty trace. -/
theorem pump_pin_state_correspondence_witness :
    (run []).ppmAPin = false ∧ (run []).ppmBPin = false :=
  (pump_pin_state_correspondence []).2.2.2.2.2.2 (Or.inl rfl)

/-! ## C3 — global lockout gating -/

/-- C3 confirmed: (1) while the lockout is active the directive step
changes neither machine's state nor the deadline — no IDLE→non-IDLE
start is taken; (2) whenever the directive step changes
`globalLockoutUntil`, one of the machines took an IDLE→non-IDLE start
edge in that same step; (3) the timed advance never writes the
deadline, (4–5) never takes an IDLE→non-IDLE edge, and (6) is
completely independent of the deadline — in-progress sequences continue
unaffected by an active lockout. -/
theorem lockout_start_gating (st : DoseSt) (now : Nat) (d : Directive) :
    (isLockedOut now st = true →
        (applyDirective st now d).phState = st.phState
          ∧ (applyDirective st now d).ppmState = st.ppmState
          ∧ (applyDirective st now d).globalLockoutUntil = st.globalLockoutUntil)
      ∧ ((applyDirective st now d).globalLockoutUntil ≠ st.globalLockoutUntil →
          (st.phState = PH_IDLE ∧ (applyDirective st now d).phState ≠ PH_IDLE)
            ∨ (st.ppmState = PPM_IDLE ∧ (applyDirective st now d).ppmState ≠ PPM_IDLE))
      ∧ (advance st now).globalLockoutUntil = st.globalLockoutUntil
      ∧ (st.phState = PH_IDLE → (advance st now).phState = PH_IDLE)
      ∧ (st.ppmState = PPM_IDLE → (advance st now).ppmState = st.ppmState)
      ∧ (∀ L, advance { st with globalLockoutUntil := L } now
          = { advance st now with globalLockoutUntil := L }) := by
  refine ⟨?_, ?_, ?_, ?_, ?_, ?_⟩
  · intro hl
    have hl' : isLockedOut now { st with lightPwm := controlGrowLight d.light } = true := hl
    simp only [applyDirective]
    rw [if_pos hl']
    exact ⟨rfl, rfl, rfl⟩
  · intro hch
    simp only [applyDirective] at hch ⊢
    by_cases h0 : isLockedOut now { st with lightPwm := controlGrowLight d.light } = true
    · rw [if_pos h0] at hch
      exact absurd rfl hch
    · rw [if_neg h0] at hch ⊢
      by_cases h1 : d.phUp = true ∧ st.phState = PH_IDLE
      · rw [if_pos h1] at hch ⊢
        exact Or.inl ⟨h1.2, by simp⟩
      · rw [if_neg h1] at hch ⊢
        by_cases h2 : d.phDn = true ∧ st.phState = PH_IDLE
        · rw [if_pos h2] at hch ⊢
          exact Or.inl ⟨h2.2, by simp⟩
        · rw [if_neg h2] at hch ⊢
          by_cases h3 : d.ppmA = true ∧ d.ppmB = true ∧ st.ppmState = PPM_IDLE
          · rw [if_pos h3] at hch ⊢
            exact Or.inr ⟨h3.2.2, by simp⟩
          · rw [if_neg h3] at hch
            exact absurd rfl hch
  · exact ((advance_ppm_fields st now).2.2.2.2).trans (advancePpm_ph_fields st now).2.2.2.2.1
  · intro h
    have e1 : (advancePpm st now).phState = PH_IDLE := (advancePpm_ph_fields st now).1.trans h
    have e2 : advancePhUp (advancePpm st now) now = advancePpm st now := by
      unfold advancePhUp
      rw [if_neg]
      rintro ⟨hcon, -⟩
      rw [e1] at hcon
      cases hcon
    have e3 : advancePhDown (advancePpm st now) now = advancePpm st now := by
      unfold advancePhDown
      rw [if_neg]
      rintro ⟨hcon, -⟩
      rw [e1] at hcon
      cases hcon
    unfold advance
    rw [e2, e3]
    exact e1
  · intro h
    rw [(advance_ppm_fields st now).1]
    unfold advancePpm
    split
    · next hc => rw [h] at hc; cases hc.1
    · split
      · next hc => rw [h] at hc; cases hc.1
      · split
        · next hc => rw [h] at hc; cases hc.1
        · rfl
  · intro L
    obtain ⟨pS, hS, pT, hT, lk, up, dn, pa, pb, pw⟩ := st
    unfold advance advancePhDown advancePhUp advancePpm
    simp only []
    split_ifs <;> rfl

/-- C3 witness: from a locked-out state (deadline 10000 at `now = 5`), a
directive commanding a pH-up start changes nothing. -/
theorem lockout_start_gating_witness :
    (applyDirective { init with globalLockoutUntil := 10000 } 5
        ⟨0, true, false, false, false, 120000⟩).phState
      = ({ init with globalLockoutUntil := 10000 } : DoseSt).phState :=
  ((lockout_start_gating { init with globalLockoutUntil := 10000 } 5
      ⟨0, true, false, false, false, 120000⟩).1 (by decide)).1

/-! ## C4 — HTTP status gate -/

/-- C4 counterexample: an HTTP 500 response with a well-formed body IS
decoded and applied — here it starts a pH-up dose from the initial
state — contradicting the claim that only status 200/201 is applied. -/
theorem http_status_gate_counterexample :
    (networkStep init 0 500 (some ⟨none, some true, none, none, none, some 120000⟩)).phState
        = PH_DOSING_UP
      ∧ networkStep init 0 500 (some ⟨none, some true, none, none, none, some 120000⟩) ≠ init := by
  decide

/-- C4 amended: the directive is decoded and applied whenever the POST
result `code` is positive (any received HTTP status, 500 included) and
the body parses; only a non-positive code (transport failure) or a parse
error skips application, and then the whole controller state — pumps,
light and dosing state — is left unchanged by the network step. -/
theorem http_status_gate (st : DoseSt) (now : Nat) (code : Int) (parsed : Option RespDoc) :
    ((code ≤ 0 ∨ parsed = none) → networkStep st now code parsed = st)
      ∧ (∀ doc, parsed = some doc → 0 < code →
          networkStep st now code parsed = applyDirective st now (decodeDirective doc)) := by
  constructor
  · rintro (h | rfl)
    · simp [networkStep, not_lt.mpr h]
    · unfold networkStep
      split
      · rfl
      · rfl
  · rintro doc rfl hc
    simp [networkStep, hc]

/-- C4 witness: a transport failure (`code = -1`) leaves the initial
state untouched even though the body would parse. -/
theorem http_status_gate_witness :
    networkStep init 3 (-1) (some ⟨none, some true, none, none, none, some 0⟩) = init :=
  (http_status_gate init 3 (-1) (some ⟨none, some true, none, none, none, some 0⟩)).1
    (Or.inl (by decide))

/-! ## C5 — clock wrap safety -/

/-- C5 counterexample: the lockout comparison `millis() < globalLockoutUntil`
is NOT of the wrap-safe `(now - start) >= duration` form.  Arming a
120000 ms lockout at `now = 2^32 - 1000` wraps the stored deadline to
119000, and `isLockedOut` is already false at the very moment of arming:
the lockout spuriously expires 120000 ms early. -/
theorem clock_wrap_safety_counterexample :
    (applyDirective init (U32 - 1000)
        (decodeDirective ⟨none, some true, none, none, none, some 120000⟩)).phState
      = PH_DOSING_UP
    ∧ (applyDirective init (U32 - 1000)
        (decodeDirective ⟨none, some true, none, none, none, some 120000⟩)).globalLockoutUntil
      = 119000
    ∧ isLockedOut (U32 - 1000)
        (applyDirective init (U32 - 1000)
          (decodeDirective ⟨none, some true, none, none, none, some 120000⟩))
      = false := by
  decide

/-- C5 amended: the dosing state-machine ages and the light-regulator
throttle do use the unsigned-difference form and are wrap-safe: for a
true (unwrapped) start time `S` and current time `T`, as long as the
elapsed time is below `2^32`, `wsub` recovers it exactly, the
`PPM_DOSING_A → PPM_DELAYING` edge fires iff `dosingDuration` has truly
elapsed, and the regulator throttles iff less than
`LIGHT_ADJUST_INTERVAL_MS` has truly elapsed — even when the raw 32-bit
clock wraps between `S` and `T`.  (The lockout comparison is the
exception; see the counterexample.) -/
theorem clock_wrap_safety (S T : Nat) (hST : S ≤ T) (h : T - S < U32) :
    wsub T S = T - S
      ∧ (∀ st : DoseSt, st.ppmState = PPM_DOSING_A → st.ppmStateChangeTime = S % U32 →
          ((advance st T).ppmState = PPM_DELAYING ↔ dosingDuration ≤ T - S))
      ∧ (∀ d : ℚ, T - S < LIGHT_ADJUST_INTERVAL_MS →
          adjustLightHeightAuto (S % U32) T d = (S % U32, [], false))
      ∧ (∀ d : ℚ, LIGHT_ADJUST_INTERVAL_MS ≤ T - S →
          (adjustLightHeightAuto (S % U32) T d).1 = T % U32) := by
  have hw : wsub T S = T - S := wsub_eq_sub hST h
  have hw' : wsub T (S % U32) = T - S := by rw [wsub_mod_right]; exact hw
  refine ⟨hw, ?_, ?_, ?_⟩
  · intro st hA hc
    rw [(advance_ppm_fields st T).1]
    unfold advancePpm
    rw [hc, hw']
    by_cases hfire : dosingDuration ≤ T - S
    · simp [hA, hfire]
    · simp [hA, hfire]
  · intro d hlt
    unfold adjustLightHeightAuto
    rw [hw']
    simp [hlt]
  · intro d hge
    unfold adjustLightHeightAuto
    rw [hw']
    simp [not_lt.mpr hge]
    split
    · rfl
    · split
      · rfl
      · rfl

/-- C5 witness: the A→DELAYING edge fires exactly on time across the
wrap: start 2^32 − 500 (stored wrapped), check at true time 2^32 + 1500
(raw clock already wrapped to 1500), elapsed exactly 2000 ms. -/
theorem clock_wrap_safety_witness :
    (advance
        { init with ppmState := PPM_DOSING_A, ppmAPin := true,
                    ppmStateChangeTime := (U32 - 500) % U32 }
        (U32 + 1500)).ppmState
      = PPM_DELAYING :=
  ((clock_wrap_safety (U32 - 500) (U32 + 1500) (by decide) (by decide)).2.1
    _ rfl rfl).mpr (by decide)

/-! ## C6 — light-height regulator policy -/

/-- C6 counterexample: with `distance_cm = 0` (no valid reading yet) a
non-throttled invocation is NOT a no-op: `0 < TARGET_MIN_CM`, so the
regulator emits `LIGHT_ADJUST_STEPS` raise steps. -/
theorem light_regulator_counterexample :
    adjustLightHeightAuto 0 1000 0
        = (1000, [StepDir.up, StepDir.up, StepDir.up, StepDir.up, StepDir.up], true)
      ∧ LIGHT_ADJUST_INTERVAL_MS ≤ wsub 1000 0 := by
  decide

/-- C6 amended: a non-throttled invocation emits exactly
`LIGHT_ADJUST_STEPS` raise steps then releases holding current when
`d < TARGET_MIN_CM` — including `d = 0`, which is treated as "too
close", not as a no-op — the same number of lower steps then release
when `d > TARGET_MAX_CM`, and no steps inside the band. -/
theorem light_regulator_policy (last now : Nat) (d : ℚ)
    (h : LIGHT_ADJUST_INTERVAL_MS ≤ wsub now last) :
    (d < TARGET_MIN_CM →
        adjustLightHeightAuto last now d
          = (now % U32, List.replicate LIGHT_ADJUST_STEPS StepDir.up, true))
      ∧ (TARGET_MAX_CM < d →
          adjustLightHeightAuto last now d
            = (now % U32, List.replicate LIGHT_ADJUST_STEPS StepDir.down, true))
      ∧ (TARGET_MIN_CM ≤ d → d ≤ TARGET_MAX_CM →
          adjustLightHeightAuto last now d = (now % U32, [], false)) := by
  have hth : ¬ wsub now last < LIGHT_ADJUST_INTERVAL_MS := not_lt.mpr h
  refine ⟨?_, ?_, ?_⟩
  · intro h1
    simp [adjustLightHeightAuto, hth, h1]
  · intro h1
    have h2 : ¬ d < TARGET_MIN_CM := by
      simp only [TARGET_MIN_CM, TARGET_MAX_CM] at *
      intro hcon
      linarith
    simp [adjustLightHeightAuto, hth, h1, h2]
  · intro h1 h2
    simp [adjustLightHeightAuto, hth, not_lt.mpr h1, not_lt.mpr h2]

/-- C6 witness: at 20 cm (below the 25 cm minimum) a non-throttled call
emits five raise steps and releases. -/
theorem light_regulator_policy_witness :
    adjustLightHeightAuto 0 1000 20 = (1000, List.replicate 5 StepDir.up, true) :=
  (light_regulator_policy 0 1000 20 (by decide)).1 (by norm_num [TARGET_MIN_CM])

/-! ## C7 — lockout_ms = 0 decoding -/

/-- C7 counterexample: a directive with `lockout_ms` present and equal
to `0` decodes to `lockoutMs = 0` (not the 120000 default), and a pH
start armed with it sets `globalLockoutUntil = now`, i.e. a zero-length
lockout that is already inactive at the moment of arming. -/
theorem lockout_zero_counterexample :
    (decodeDirective ⟨none, some true, none, none, none, some 0⟩).lockoutMs = 0
      ∧ (applyDirective init 5
          (decodeDirective ⟨none, some true, none, none, none, some 0⟩)).phState
        = PH_DOSING_UP
      ∧ (applyDirective init 5
          (decodeDirective ⟨none, some true, none, none, none, some 0⟩)).globalLockoutUntil
        = 5
      ∧ isLockedOut 5
          (applyDirective init 5
            (decodeDirective ⟨none, some true, none, none, none, some 0⟩))
        = false := by
  decide

/-- C7 amended: the 120000 ms default is used only when the
`lockout_ms` key is absent from the response document; any present
value — `0` included — is used verbatim, so `0` yields a zero-length
settle lockout. -/
theorem lockout_default_on_absent (doc : RespDoc) :
    (doc.lockout_ms = none → (decodeDirective doc).lockoutMs = 120000)
      ∧ ∀ v, doc.lockout_ms = some v → (decodeDirective doc).lockoutMs = v := by
  constructor
  · intro h
    simp [decodeDirective, h]
  · intro v h
    simp [decodeDirective, h]

/-- C7 witness: a response without `lockout_ms` decodes to the default. -/
theorem lockout_default_on_absent_witness :
    (decodeDirective ⟨none, none, none, none, none, none⟩).lockoutMs = 120000 :=
  (lockout_default_on_absent ⟨none, none, none, none, none, none⟩).1 rfl

/-! ## C8 — NaN temperature handling -/

/-- C8 counterexample: after a NaN temperature read with previous
`currentTempC = 25`, the global is overwritten with the `0` sentinel
(not retained), and the PPM compensation consequently divides by
`1 + 0.02·(0 − 25) = 1/2`, doubling the reported ppm (86625/128 instead
of the 86625/256 obtained with the true 25 °C). -/
theorem dht_nan_counterexample :
    (readDHT ⟨some 60, none⟩ 25).2 = 0
      ∧ (readDHT ⟨some 60, none⟩ 25).1
        = [("temperature", JVal.num 0), ("humidity", JVal.num 60)]
      ∧ readPpmSensor [1000, 1000, 1000, 1000, 1000, 1000, 1000, 1000, 1000, 1000] 0
        = [("ppm", JVal.num (86625 / 128))]
      ∧ readPpmSensor [1000, 1000, 1000, 1000, 1000, 1000, 1000, 1000, 1000, 1000] 25
        = [("ppm", JVal.num (86625 / 256))] := by
  refine ⟨rfl, rfl, ?_, ?_⟩
  · simp only [readPpmSensor, List.sum_cons, List.sum_nil]
    norm_num
  · simp only [readPpmSensor, List.sum_cons, List.sum_nil]
    norm_num

/-- C8 amended: on a NaN temperature read the snapshot field is reported
as `0.0` AND `currentTempC` is overwritten with the same `0` sentinel
(the previous valid value is discarded); the PPM reading of that cycle
is then compensated with the sentinel, i.e. divided by `1/2` — doubling
it — rather than with the last-known temperature. -/
theorem dht_nan_sentinel (r : DhtReading) (c : ℚ) :
    (r.temperature = none →
        (readDHT r c).1.head? = some ("temperature", JVal.num 0) ∧ (readDHT r c).2 = 0)
      ∧ (∀ t, r.temperature = some t → (readDHT r c).2 = t)
      ∧ (∀ s : List Int,
          readPpmSensor s 0
            = [("ppm", JVal.num (2 * (420 * (((s.sum : ℚ) / 10) * (33 / 10) / 4096))))]) := by
  refine ⟨?_, ?_, ?_⟩
  · intro h
    simp [readDHT, h]
  · intro t h
    simp [readDHT, h]
  · intro s
    unfold readPpmSensor
    norm_num
    ring

/-- C8 witness: concrete instance — NaN temperature with previous value
25 reports 0 and hands 0 to the compensation. -/
theorem dht_nan_sentinel_witness :
    (readDHT ⟨some 60, none⟩ 25).2 = 0 :=
  ((dht_nan_sentinel ⟨some 60, none⟩ 25).1 rfl).2

/-! ## C9 — request body keys -/

/-- C9 counterexample: the serialized document of a concrete cycle
carries the key `water_detected`, not the claimed `water_sufficient`. -/
theorem request_keys_counterexample :
    ((sensorCycle ⟨⟨some 50, some 25⟩, 1000, [], [], 700⟩ 25 0).1.map Prod.fst
        = ["temperature", "humidity", "distance", "ppm", "ph", "water_detected"])
      ∧ "water_sufficient"
          ∉ ((sensorCycle ⟨⟨some 50, some 25⟩, 1000, [], [], 700⟩ 25 0).1.map Prod.fst) := by
  decide

/-- C9 amended: every cycle's document contains exactly the keys
`temperature, humidity, distance, ppm, ph, water_detected` (in that
order), the last being the boolean `adc > WATER_THRESHOLD`. -/
theorem request_body_keys (inp : SensorInputs) (c d0 : ℚ) :
    ((sensorCycle inp c d0).1.map Prod.fst
        = ["temperature", "humidity", "distance", "ppm", "ph", "water_detected"])
      ∧ ("water_detected", JVal.jbool (decide (inp.waterAdc > WATER_THRESHOLD)))
          ∈ (sensorCycle inp c d0).1 := by
  constructor
  · simp [sensorCycle, readDHT, readUltrasonic, readPpmSensor, readPhSensor, readWaterSensor]
  · simp [sensorCycle, readDHT, readUltrasonic, readPpmSensor, readPhSensor, readWaterSensor]

/-! ## Trace machinery for the temporal claims -/

theorem chainOk_cons {P Q t : Nat} {k : Tick} {ks : List Tick} :
    chainOk P Q t (k :: ks) = true ↔
      t ≤ k.tAdv ∧ k.tAdv ≤ t + P ∧ k.tAdv ≤ k.tApp ∧ k.tApp ≤ k.tAdv + Q
        ∧ k.tApp < U32 ∧ chainOk P Q k.tApp ks = true := by
  simp [chainOk, Bool.and_eq_true, decide_eq_true_eq, and_assoc]

theorem chainOk_lastAnchor_ge {P Q : Nat} :
    ∀ (ks : List Tick) (t : Nat), chainOk P Q t ks = true → t ≤ lastAnchor t ks := by
  intro ks
  induction ks with
  | nil => intro t _; exact le_refl t
  | cons k ks ih =>
    intro t h
    rw [chainOk_cons] at h
    obtain ⟨ha, -, hb, -, -, hrest⟩ := h
    exact le_trans (le_trans ha hb) (ih k.tApp hrest)

theorem chainOk_mem_le {P Q : Nat} :
    ∀ (ks : List Tick) (t : Nat), chainOk P Q t ks = true →
      ∀ k ∈ ks, k.tAdv ≤ lastAnchor t ks := by
  intro ks
  induction ks with
  | nil => intro t _ k hk; cases hk
  | cons k' ks ih =>
    intro t h k hk
    rw [chainOk_cons] at h
    obtain ⟨-, -, hb, -, -, hrest⟩ := h
    rcases List.mem_cons.mp hk with rfl | hk
    · exact le_trans hb (chainOk_lastAnchor_ge ks k.tApp hrest)
    · exact ih k'.tApp hrest k hk

theorem chainOk_take {P Q : Nat} :
    ∀ (ks : List Tick) (t n : Nat), chainOk P Q t ks = true →
      chainOk P Q t (ks.take n) = true := by
  intro ks
  induction ks with
  | nil => intro t n _; simp [chainOk]
  | cons k ks ih =>
    intro t n h
    cases n with
    | zero => simp [chainOk]
    | succ n =>
      rw [chainOk_cons] at h
      rw [List.take_succ_cons, chainOk_cons]
      exact ⟨h.1, h.2.1, h.2.2.1, h.2.2.2.1, h.2.2.2.2.1, ih k.tApp n h.2.2.2.2.2⟩

theorem allConnected_take {ks : List Tick} {n : Nat} (h : allConnected ks = true) :
    allConnected (ks.take n) = true := by
  rw [allConnected, List.all_eq_true] at h ⊢
  exact fun k hk => h k (List.take_subset n ks hk)

theorem chainOk_get {P Q : Nat} :
    ∀ (ks : List Tick) (t : Nat), chainOk P Q t ks = true →
      ∀ (n : Nat) (hn : n < ks.length),
        lastAnchor t (ks.take n) ≤ (ks.get ⟨n, hn⟩).tAdv
          ∧ (ks.get ⟨n, hn⟩).tAdv ≤ (ks.get ⟨n, hn⟩).tApp
          ∧ (ks.get ⟨n, hn⟩).tApp < U32 := by
  intro ks
  induction ks with
  | nil => intro t _ n hn; cases hn
  | cons k ks ih =>
    intro t h n hn
    rw [chainOk_cons] at h
    cases n with
    | zero => exact ⟨h.1, h.2.2.1, h.2.2.2.2.1⟩
    | succ n =>
      rw [List.take_succ_cons]
      exact ih k.tApp h.2.2.2.2.2 n (Nat.lt_of_succ_lt_succ hn)

/-- The directive step never touches the PPM machine while it is
mid-sequence: every PPM write in `applyDirective` sits under the
`ppmState == PPM_IDLE` start condition. -/
theorem applyDirective_ppm_busy (st : DoseSt) (now : Nat) (d : Directive)
    (h : st.ppmState ≠ PPM_IDLE) :
    (applyDirective st now d).ppmState = st.ppmState
      ∧ (applyDirective st now d).ppmStateChangeTime = st.ppmStateChangeTime := by
  simp only [applyDirective]
  by_cases h0 : isLockedOut now { st with lightPwm := controlGrowLight d.light } = true
  · rw [if_pos h0]
    exact ⟨rfl, rfl⟩
  · rw [if_neg h0]
    by_cases h1 : d.phUp = true ∧ st.phState = PH_IDLE
    · rw [if_pos h1]
      exact ⟨rfl, rfl⟩
    · rw [if_neg h1]
      by_cases h2 : d.phDn = true ∧ st.phState = PH_IDLE
      · rw [if_pos h2]
        exact ⟨rfl, rfl⟩
      · rw [if_neg h2]
        by_cases h3 : d.ppmA = true ∧ d.ppmB = true ∧ st.ppmState = PPM_IDLE
        · exact absurd h3.2.2 h
        · rw [if_neg h3]
          exact ⟨rfl, rfl⟩

theorem networkStep_ppm_busy (st : DoseSt) (now : Nat) (code : Int)
    (parsed : Option RespDoc) (h : st.ppmState ≠ PPM_IDLE) :
    (networkStep st now code parsed).ppmState = st.ppmState
      ∧ (networkStep st now code parsed).ppmStateChangeTime = st.ppmStateChangeTime := by
  unfold networkStep
  split
  · cases parsed with
    | some doc => exact applyDirective_ppm_busy st now (decodeDirective doc) h
    | none => exact ⟨rfl, rfl⟩
  · exact ⟨rfl, rfl⟩

theorem tick_ppm_busy (st : DoseSt) (k : Tick) (hcon : k.connected = true)
    (h : (advance st k.tAdv).ppmState ≠ PPM_IDLE) :
    (tick st k).ppmState = (advance st k.tAdv).ppmState
      ∧ (tick st k).ppmStateChangeTime = (advance st k.tAdv).ppmStateChangeTime := by
  unfold tick
  simp only [hcon, if_true]
  cases hr : k.resp with
  | none => exact ⟨rfl, rfl⟩
  | some cp =>
    obtain ⟨code, parsed⟩ := cp
    exact networkStep_ppm_busy (advance st k.tAdv) k.tApp code parsed h

/-- One connected, chain-regular tick preserves the mid-sequence
invariant or fires the final `PPM_DOSING_B → PPM_IDLE` edge, and in the
latter case the firing time lands in
`[t0 + D+G+D, t0 + D+G+D + 3(P+Q))`. -/
theorem phaseInv_tick {t0 P Q : Nat} {st : DoseSt} {k : Tick} {t : Nat}
    (hcon : k.connected = true)
    (h1 : t ≤ k.tAdv) (h2 : k.tAdv ≤ t + P) (h3 : k.tAdv ≤ k.tApp)
    (h4 : k.tApp ≤ k.tAdv + Q) (h5 : k.tApp < U32)
    (hInv : PpmPhaseInv t0 (P + Q) Q st t) :
    PpmPhaseInv t0 (P + Q) Q (tick st k) k.tApp
      ∨ ((advance st k.tAdv).ppmState = PPM_IDLE
          ∧ t0 + ppmSeqTotal ≤ k.tAdv
          ∧ k.tAdv < t0 + ppmSeqTotal + 3 * (P + Q)) := by
  have hAdvU : k.tAdv < U32 := lt_of_le_of_lt h3 h5
  have hDpos : 0 < dosingDuration := by decide
  have hGpos : 0 < delayDuration := by decide
  unfold PpmPhaseInv at hInv
  rcases hInv with ⟨hA, hc, hta, htb⟩ | ⟨hD, hlo, hhi, hta, htb⟩ | ⟨hB, hlo, hhi, hta, htb⟩
  · -- in DOSING_A since t0
    have hcle : st.ppmStateChangeTime ≤ k.tAdv := by omega
    have hw : wsub k.tAdv st.ppmStateChangeTime = k.tAdv - st.ppmStateChangeTime :=
      wsub_eq_sub hcle (by omega)
    by_cases hf : dosingDuration ≤ k.tAdv - st.ppmStateChangeTime
    · -- fires A → DELAYING
      have he : advancePpm st k.tAdv
          = { st with ppmAPin := false, ppmState := PPM_DELAYING,
                      ppmStateChangeTime := k.tAdv % U32 } := by
        unfold advancePpm
        rw [if_pos ⟨hA, by rw [hw]; exact hf⟩]
      have hmid1 : (advance st k.tAdv).ppmState = PPM_DELAYING := by
        rw [(advance_ppm_fields st k.tAdv).1, he]
      have hmid2 : (advance st k.tAdv).ppmStateChangeTime = k.tAdv := by
        rw [(advance_ppm_fields st k.tAdv).2.1, he]
        exact Nat.mod_eq_of_lt hAdvU
      have hbusy : (advance st k.tAdv).ppmState ≠ PPM_IDLE := by
        rw [hmid1]
        exact fun hcon' => by cases hcon'
      obtain ⟨e1, e2⟩ := tick_ppm_busy st k hcon hbusy
      left
      unfold PpmPhaseInv
      rw [e1, e2, hmid1, hmid2]
      exact Or.inr (Or.inl ⟨rfl, by omega, by omega, by omega, by omega⟩)
    · -- still DOSING_A
      have he : advancePpm st k.tAdv = st := by
        unfold advancePpm
        rw [if_neg (fun hcond => hf (hw ▸ hcond.2)), if_neg (by rw [hA]; rintro ⟨h', -⟩; cases h'),
          if_neg (by rw [hA]; rintro ⟨h', -⟩; cases h')]
      have hmid1 : (advance st k.tAdv).ppmState = PPM_DOSING_A := by
        rw [(advance_ppm_fields st k.tAdv).1, he, hA]
      have hmid2 : (advance st k.tAdv).ppmStateChangeTime = st.ppmStateChangeTime := by
        rw [(advance_ppm_fields st k.tAdv).2.1, he]
      have hbusy : (advance st k.tAdv).ppmState ≠ PPM_IDLE := by
        rw [hmid1]
        exact fun hcon' => by cases hcon'
      obtain ⟨e1, e2⟩ := tick_ppm_busy st k hcon hbusy
      left
      unfold PpmPhaseInv
      rw [e1, e2, hmid1, hmid2]
      exact Or.inl ⟨rfl, hc, by omega, by omega⟩
  · -- in DELAYING
    have hcle : st.ppmStateChangeTime ≤ k.tAdv := by omega
    have hw : wsub k.tAdv st.ppmStateChangeTime = k.tAdv - st.ppmStateChangeTime :=
      wsub_eq_sub hcle (by omega)
    by_cases hf : delayDuration ≤ k.tAdv - st.ppmStateChangeTime
    · -- fires DELAYING → DOSING_B
      have he : advancePpm st k.tAdv
          = { st with ppmBPin := true, ppmState := PPM_DOSING_B,
                      ppmStateChangeTime := k.tAdv % U32 } := by
        unfold advancePpm
        rw [if_neg (by rw [hD]; rintro ⟨h', -⟩; cases h'), if_pos ⟨hD, by rw [hw]; exact hf⟩]
      have hmid1 : (advance st k.tAdv).ppmState = PPM_DOSING_B := by
        rw [(advance_ppm_fields st k.tAdv).1, he]
      have hmid2 : (advance st k.tAdv).ppmStateChangeTime = k.tAdv := by
        rw [(advance_ppm_fields st k.tAdv).2.1, he]
        exact Nat.mod_eq_of_lt hAdvU
      have hbusy : (advance st k.tAdv).ppmState ≠ PPM_IDLE := by
        rw [hmid1]
        exact fun hcon' => by cases hcon'
      obtain ⟨e1, e2⟩ := tick_ppm_busy st k hcon hbusy
      left
      unfold PpmPhaseInv
      rw [e1, e2, hmid1, hmid2]
      exact Or.inr (Or.inr ⟨rfl, by omega, by omega, by omega, by omega⟩)
    · -- still DELAYING
      have he : advancePpm st k.tAdv = st := by
        unfold advancePpm
        rw [if_neg (by rw [hD]; rintro ⟨h', -⟩; cases h'),
          if_neg (fun hcond => hf (hw ▸ hcond.2)),
          if_neg (by rw [hD]; rintro ⟨h', -⟩; cases h')]
      have hmid1 : (advance st k.tAdv).ppmState = PPM_DELAYING := by
        rw [(advance_ppm_fields st k.tAdv).1, he, hD]
      have hmid2 : (advance st k.tAdv).ppmStateChangeTime = st.ppmStateChangeTime := by
        rw [(advance_ppm_fields st k.tAdv).2.1, he]
      have hbusy : (advance st k.tAdv).ppmState ≠ PPM_IDLE := by
        rw [hmid1]
        exact fun hcon' => by cases hcon'
      obtain ⟨e1, e2⟩ := tick_ppm_busy st k hcon hbusy
      left
      unfold PpmPhaseInv
      rw [e1, e2, hmid1, hmid2]
      exact Or.inr (Or.inl ⟨rfl, by omega, by omega, by omega, by omega⟩)
  · -- in DOSING_B
    have hcle : st.ppmStateChangeTime ≤ k.tAdv := by omega
    have hw : wsub k.tAdv st.ppmStateChangeTime = k.tAdv - st.ppmStateChangeTime :=
      wsub_eq_sub hcle (by omega)
    by_cases hf : dosingDuration ≤ k.tAdv - st.ppmStateChangeTime
    · -- fires DOSING_B → IDLE: sequence complete
      have he : advancePpm st k.tAdv = { st with ppmBPin := false, ppmState := PPM_IDLE } := by
        unfold advancePpm
        rw [if_neg (by rw [hB]; rintro ⟨h', -⟩; cases h'),
          if_neg (by rw [hB]; rintro ⟨h', -⟩; cases h'), if_pos ⟨hB, by rw [hw]; exact hf⟩]
      right
      refine ⟨?_, ?_, ?_⟩
      · rw [(advance_ppm_fields st k.tAdv).1, he]
      · unfold ppmSeqTotal
        omega
      · unfold ppmSeqTotal
        omega
    · -- still DOSING_B
      have he : advancePpm st k.tAdv = st := by
        unfold advancePpm
        rw [if_neg (by rw [hB]; rintro ⟨h', -⟩; cases h'),
          if_neg (by rw [hB]; rintro ⟨h', -⟩; cases h'),
          if_neg (fun hcond => hf (hw ▸ hcond.2))]
      have hmid1 : (advance st k.tAdv).ppmState = PPM_DOSING_B := by
        rw [(advance_ppm_fields st k.tAdv).1, he, hB]
      have hmid2 : (advance st k.tAdv).ppmStateChangeTime = st.ppmStateChangeTime := by
        rw [(advance_ppm_fields st k.tAdv).2.1, he]
      have hbusy : (advance st k.tAdv).ppmState ≠ PPM_IDLE := by
        rw [hmid1]
        exact fun hcon' => by cases hcon'
      obtain ⟨e1, e2⟩ := tick_ppm_busy st k hcon hbusy
      left
      unfold PpmPhaseInv
      rw [e1, e2, hmid1, hmid2]
      exact Or.inr (Or.inr ⟨rfl, by omega, by omega, by omega, by omega⟩)

/-- Running a connected, chain-regular trace from a mid-sequence state
either stays mid-sequence (with the anchor tracking the trace) or fires
the final edge at some cycle `n`, at a time in
`[t0 + D+G+D, t0 + D+G+D + 3(P+Q))`. -/
theorem phaseInv_runFrom {t0 P Q : Nat} :
    ∀ (ks : List Tick) (st : DoseSt) (t : Nat),
      allConnected ks = true → chainOk P Q t ks = true →
      PpmPhaseInv t0 (P + Q) Q st t →
      PpmPhaseInv t0 (P + Q) Q (runFrom st ks) (lastAnchor t ks)
        ∨ ∃ n, ∃ hn : n < ks.length,
            (advance (runFrom st (ks.take n)) (ks.get ⟨n, hn⟩).tAdv).ppmState = PPM_IDLE
              ∧ t0 + ppmSeqTotal ≤ (ks.get ⟨n, hn⟩).tAdv
              ∧ (ks.get ⟨n, hn⟩).tAdv < t0 + ppmSeqTotal + 3 * (P + Q) := by
  intro ks
  induction ks with
  | nil => intro st t _ _ hInv; exact Or.inl hInv
  | cons k ks ih =>
    intro st t hcon hch hInv
    rw [chainOk_cons] at hch
    obtain ⟨c1, c2, c3, c4, c5, crest⟩ := hch
    rw [allConnected, List.all_eq_true] at hcon
    have hkcon : k.connected = true := hcon k (List.mem_cons_self k ks)
    have hcon' : allConnected ks = true := by
      rw [allConnected, List.all_eq_true]
      exact fun x hx => hcon x (List.mem_cons_of_mem k hx)
    rcases phaseInv_tick hkcon c1 c2 c3 c4 c5 hInv with hnext | hdone
    · rcases ih (tick st k) k.tApp hcon' crest hnext with hleft | ⟨n, hn, hfact⟩
      · exact Or.inl hleft
      · exact Or.inr ⟨n + 1, Nat.succ_lt_succ hn, hfact⟩
    · exact Or.inr ⟨0, Nat.succ_pos _, hdone⟩

/-- From a mid-sequence state, a cycle whose advance time has not yet
reached `t0 + D+G+D` cannot leave the machine `PPM_IDLE`. -/
theorem phaseInv_advance_ne_idle {t0 S Q : Nat} {st : DoseSt} {t now : Nat}
    (hInv : PpmPhaseInv t0 S Q st t) (hle : t ≤ now) (hU : now < U32)
    (hlt : now < t0 + ppmSeqTotal) :
    (advance st now).ppmState ≠ PPM_IDLE := by
  rw [(advance_ppm_fields st now).1]
  unfold PpmPhaseInv at hInv
  unfold ppmSeqTotal at hlt
  rcases hInv with ⟨hA, hc, hta, htb⟩ | ⟨hD, hlo, hhi, hta, htb⟩ | ⟨hB, hlo, hhi, hta, htb⟩
  · unfold advancePpm
    split
    · exact fun hcon' => by cases hcon'
    · split
      · next hcond => rw [hA] at hcond; cases hcond.1
      · split
        · next hcond => rw [hA] at hcond; cases hcond.1
        · rw [hA]; exact fun hcon' => by cases hcon'
  · unfold advancePpm
    split
    · next hcond => rw [hD] at hcond; cases hcond.1
    · split
      · exact fun hcon' => by cases hcon'
      · split
        · next hcond => rw [hD] at hcond; cases hcond.1
        · rw [hD]; exact fun hcon' => by cases hcon'
  · have hcle : st.ppmStateChangeTime ≤ now := by omega
    have hw : wsub now st.ppmStateChangeTime = now - st.ppmStateChangeTime :=
      wsub_eq_sub hcle (by omega)
    unfold advancePpm
    split
    · next hcond => rw [hB] at hcond; cases hcond.1
    · split
      · next hcond => rw [hB] at hcond; cases hcond.1
      · split
        · next hcond =>
          exfalso
          rw [hw] at hcond
          omega
        · rw [hB]; exact fun hcon' => by cases hcon'

/-! ## C1 — PPM sequence completion -/

/-- C1 counterexample: the claim fails twice on the code.  First
conjuncts: a PPM sequence started at `t = 0` (reachable from `init`,
deadline 6000) is frozen by Wi-Fi loss — a disconnected iteration at
raw time 100000 changes nothing, so the machine is still `PPM_DOSING_A`
with pump A on far beyond `D+G+D` plus any cycle period.  Last
conjuncts: even fully connected, with a uniform 900 ms cycle period the
per-transition slack accumulates: at the cycle at `t = 7200`
(1200 ms — more than one period — past `D+G+D = 6000`) the machine is
still `PPM_DOSING_B`, and IDLE is reached only at `t = 8100`. -/
theorem ppm_sequence_timing_counterexample :
    run [⟨true, 0, 0, some (200, some ⟨none, none, none, some true, some true, some 0⟩)⟩]
        = ⟨PPM_DOSING_A, PH_IDLE, 0, 0, 6000, false, false, true, false, 0⟩
      ∧ tick ⟨PPM_DOSING_A, PH_IDLE, 0, 0, 6000, false, false, true, false, 0⟩
          ⟨false, 100000, 100000, none⟩
        = ⟨PPM_DOSING_A, PH_IDLE, 0, 0, 6000, false, false, true, false, 0⟩
      ∧ (runFrom ⟨PPM_DOSING_A, PH_IDLE, 0, 0, 6000, false, false, true, false, 0⟩
          [⟨true, 900, 900, none⟩, ⟨true, 1800, 1800, none⟩, ⟨true, 2700, 2700, none⟩,
           ⟨true, 3600, 3600, none⟩, ⟨true, 4500, 4500, none⟩, ⟨true, 5400, 5400, none⟩,
           ⟨true, 6300, 6300, none⟩, ⟨true, 7200, 7200, none⟩]).ppmState = PPM_DOSING_B
      ∧ (runFrom ⟨PPM_DOSING_A, PH_IDLE, 0, 0, 6000, false, false, true, false, 0⟩
          [⟨true, 900, 900, none⟩, ⟨true, 1800, 1800, none⟩, ⟨true, 2700, 2700, none⟩,
           ⟨true, 3600, 3600, none⟩, ⟨true, 4500, 4500, none⟩, ⟨true, 5400, 5400, none⟩,
           ⟨true, 6300, 6300, none⟩, ⟨true, 7200, 7200, none⟩,
           ⟨true, 8100, 8100, none⟩]).ppmState = PPM_IDLE := by
  decide

/-- C1 amended: once the PPM machine is in `PPM_DOSING_A` entered at
`t0`, then along any trace of CONNECTED cycles — with cycle period
bounded by `P` and within-cycle clock advance bounded by `Q`, and
regardless of the directives received, including repeated commands and
lockout arming — (a) no cycle whose state-machine update runs before
`t0 + D+G+D` leaves the machine IDLE, and (b) as soon as the trace
contains a cycle at or after `t0 + D+G+D + 2(P+Q) + Q`, some cycle's
update has returned the machine to IDLE, and every such first return
happens at a cycle in `[t0 + D+G+D, t0 + D+G+D + 3(P+Q))` — i.e. the
sequence completes `D+G+D` ms after entry up to at most three cycle
periods of slack (one per transition), not one; and disconnection
freezes the sequence entirely (see the counterexample). -/
theorem ppm_sequence_timing (P Q t0 : Nat) (ks : List Tick) (st : DoseSt)
    (hA : st.ppmState = PPM_DOSING_A) (hc : st.ppmStateChangeTime = t0)
    (hcon : allConnected ks = true) (hch : chainOk P Q t0 ks = true) :
    (∀ (n : Nat) (hn : n < ks.length), (ks.get ⟨n, hn⟩).tAdv < t0 + ppmSeqTotal →
        (advance (runFrom st (ks.take n)) (ks.get ⟨n, hn⟩).tAdv).ppmState ≠ PPM_IDLE)
      ∧ ((∃ k ∈ ks, t0 + ppmSeqTotal + 2 * (P + Q) + Q ≤ k.tAdv) →
          ∃ n, ∃ hn : n < ks.length,
            (advance (runFrom st (ks.take n)) (ks.get ⟨n, hn⟩).tAdv).ppmState = PPM_IDLE
              ∧ t0 + ppmSeqTotal ≤ (ks.get ⟨n, hn⟩).tAdv
              ∧ (ks.get ⟨n, hn⟩).tAdv < t0 + ppmSeqTotal + 3 * (P + Q)) := by
  have hDpos : 0 < dosingDuration := by decide
  have hGpos : 0 < delayDuration := by decide
  have hInit : PpmPhaseInv t0 (P + Q) Q st t0 := by
    unfold PpmPhaseInv
    exact Or.inl ⟨hA, hc, le_refl t0, by omega⟩
  constructor
  · intro n hn hlt
    have hchn := chainOk_take ks t0 n hch
    have hconn := allConnected_take (n := n) hcon
    have hget := chainOk_get ks t0 hch n hn
    rcases phaseInv_runFrom (ks.take n) st t0 hconn hchn hInit with hleft | ⟨m, hm, hfact⟩
    · exact phaseInv_advance_ne_idle hleft hget.1 (lt_of_le_of_lt hget.2.1 hget.2.2) hlt
    · exfalso
      have hmem : (ks.take n).get ⟨m, hm⟩ ∈ ks.take n := List.get_mem _ _ _
      have hmono := chainOk_mem_le (ks.take n) t0 hchn _ hmem
      have := hfact.2.1
      omega
  · rintro ⟨kBig, hkmem, hkbig⟩
    rcases phaseInv_runFrom ks st t0 hcon hch hInit with hleft | hdone
    · exfalso
      have hle := chainOk_mem_le ks t0 hch kBig hkmem
      unfold PpmPhaseInv at hleft
      unfold ppmSeqTotal at hkbig
      rcases hleft with ⟨-, -, -, hb⟩ | ⟨-, -, hhi, -, hb⟩ | ⟨-, -, hhi, -, hb⟩ <;> omega
    · exact hdone

/-- C1 witness: the amended theorem applied to the concrete mid-`A`
state (entered at 0, reachable from `init`) and a uniform 900 ms
connected trace: the cycle at 900 does not leave the machine IDLE. -/
theorem ppm_sequence_timing_witness :
    (advance ⟨PPM_DOSING_A, PH_IDLE, 0, 0, 6000, false, false, true, false, 0⟩ 900).ppmState
      ≠ PPM_IDLE :=
  (ppm_sequence_timing 900 0 0
      [⟨true, 900, 900, none⟩, ⟨true, 1800, 1800, none⟩, ⟨true, 2700, 2700, none⟩,
       ⟨true, 3600, 3600, none⟩, ⟨true, 4500, 4500, none⟩, ⟨true, 5400, 5400, none⟩,
       ⟨true, 6300, 6300, none⟩, ⟨true, 7200, 7200, none⟩, ⟨true, 8100, 8100, none⟩]
      ⟨PPM_DOSING_A, PH_IDLE, 0, 0, 6000, false, false, true, false, 0⟩
      rfl rfl (by decide) (by decide)).1 0 (by decide) (by decide)

/-! ## Branch equations for the advance and directive steps -/

theorem advance_lockout (st : DoseSt) (now : Nat) :
    (advance st now).globalLockoutUntil = st.globalLockoutUntil :=
  ((advance_ppm_fields st now).2.2.2.2).trans (advancePpm_ph_fields st now).2.2.2.2.1

theorem advancePpm_idle (st : DoseSt) (now : Nat) (h : st.ppmState = PPM_IDLE) :
    advancePpm st now = st := by
  unfold advancePpm
  rw [if_neg (by rw [h]; rintro ⟨h', -⟩; cases h'), if_neg (by rw [h]; rintro ⟨h', -⟩; cases h'),
    if_neg (by rw [h]; rintro ⟨h', -⟩; cases h')]

theorem advancePpm_A_fire (st : DoseSt) (now : Nat) (hA : st.ppmState = PPM_DOSING_A)
    (hf : dosingDuration ≤ wsub now st.ppmStateChangeTime) :
    advancePpm st now
      = { st with ppmAPin := false, ppmState := PPM_DELAYING,
                  ppmStateChangeTime := now % U32 } := by
  unfold advancePpm
  rw [if_pos ⟨hA, hf⟩]

theorem advancePpm_A_hold (st : DoseSt) (now : Nat) (hA : st.ppmState = PPM_DOSING_A)
    (hf : ¬ dosingDuration ≤ wsub now st.ppmStateChangeTime) :
    advancePpm st now = st := by
  unfold advancePpm
  rw [if_neg (fun hc => hf hc.2), if_neg (by rw [hA]; rintro ⟨h', -⟩; cases h'),
    if_neg (by rw [hA]; rintro ⟨h', -⟩; cases h')]

theorem advancePpm_D_fire (st : DoseSt) (now : Nat) (hD : st.ppmState = PPM_DELAYING)
    (hf : delayDuration ≤ wsub now st.ppmStateChangeTime) :
    advancePpm st now
      = { st with ppmBPin := true, ppmState := PPM_DOSING_B,
                  ppmStateChangeTime := now % U32 } := by
  unfold advancePpm
  rw [if_neg (by rw [hD]; rintro ⟨h', -⟩; cases h'), if_pos ⟨hD, hf⟩]

theorem advancePpm_D_hold (st : DoseSt) (now : Nat) (hD : st.ppmState = PPM_DELAYING)
    (hf : ¬ delayDuration ≤ wsub now st.ppmStateChangeTime) :
    advancePpm st now = st := by
  unfold advancePpm
  rw [if_neg (by rw [hD]; rintro ⟨h', -⟩; cases h'), if_neg (fun hc => hf hc.2),
    if_neg (by rw [hD]; rintro ⟨h', -⟩; cases h')]

theorem advancePpm_B_fire (st : DoseSt) (now : Nat) (hB : st.ppmState = PPM_DOSING_B)
    (hf : dosingDuration ≤ wsub now st.ppmStateChangeTime) :
    advancePpm st now = { st with ppmBPin := false, ppmState := PPM_IDLE } := by
  unfold advancePpm
  rw [if_neg (by rw [hB]; rintro ⟨h', -⟩; cases h'),
    if_neg (by rw [hB]; rintro ⟨h', -⟩; cases h'), if_pos ⟨hB, hf⟩]

theorem advancePpm_B_hold (st : DoseSt) (now : Nat) (hB : st.ppmState = PPM_DOSING_B)
    (hf : ¬ dosingDuration ≤ wsub now st.ppmStateChangeTime) :
    advancePpm st now = st := by
  unfold advancePpm
  rw [if_neg (by rw [hB]; rintro ⟨h', -⟩; cases h'),
    if_neg (by rw [hB]; rintro ⟨h', -⟩; cases h'), if_neg (fun hc => hf hc.2)]

theorem advancePhUp_idle (st : DoseSt) (now : Nat) (h : st.phState = PH_IDLE) :
    advancePhUp st now = st := by
  unfold advancePhUp
  rw [if_neg (by rw [h]; rintro ⟨h', -⟩; cases h')]

theorem advancePhDown_idle (st : DoseSt) (now : Nat) (h : st.phState = PH_IDLE) :
    advancePhDown st now = st := by
  unfold advancePhDown
  rw [if_neg (by rw [h]; rintro ⟨h', -⟩; cases h')]

theorem advancePhUp_notUp (st : DoseSt) (now : Nat) (h : st.phState ≠ PH_DOSING_UP) :
    advancePhUp st now = st := by
  unfold advancePhUp
  rw [if_neg (fun hc => h hc.1)]

theorem advancePhDown_notDown (st : DoseSt) (now : Nat) (h : st.phState ≠ PH_DOSING_DOWN) :
    advancePhDown st now = st := by
  unfold advancePhDown
  rw [if_neg (fun hc => h hc.1)]

theorem advancePhUp_fire (st : DoseSt) (now : Nat) (h : st.phState = PH_DOSING_UP)
    (hf : dosingDuration ≤ wsub now st.phStateChangeTime) :
    advancePhUp st now = { st with phUpPin := false, phState := PH_IDLE } := by
  unfold advancePhUp
  rw [if_pos ⟨h, hf⟩]

theorem advancePhDown_fire (st : DoseSt) (now : Nat) (h : st.phState = PH_DOSING_DOWN)
    (hf : dosingDuration ≤ wsub now st.phStateChangeTime) :
    advancePhDown st now = { st with phDownPin := false, phState := PH_IDLE } := by
  unfold advancePhDown
  rw [if_pos ⟨h, hf⟩]

theorem advancePhUp_hold (st : DoseSt) (now : Nat)
    (hf : ¬ dosingDuration ≤ wsub now st.phStateChangeTime) :
    advancePhUp st now = st := by
  unfold advancePhUp
  rw [if_neg (fun hc => hf hc.2)]

theorem advancePhDown_hold (st : DoseSt) (now : Nat)
    (hf : ¬ dosingDuration ≤ wsub now st.phStateChangeTime) :
    advancePhDown st now = st := by
  unfold advancePhDown
  rw [if_neg (fun hc => hf hc.2)]

theorem advance_both_idle (st : DoseSt) (now : Nat) (hph : st.phState = PH_IDLE)
    (hppm : st.ppmState = PPM_IDLE) :
    advance st now = st := by
  unfold advance
  rw [advancePpm_idle st now hppm, advancePhUp_idle st now hph, advancePhDown_idle st now hph]

theorem advance_eq_advancePpm (st : DoseSt) (now : Nat) (hph : st.phState = PH_IDLE) :
    advance st now = advancePpm st now := by
  unfold advance
  have h1 : (advancePpm st now).phState = PH_IDLE := (advancePpm_ph_fields st now).1.trans hph
  rw [advancePhUp_idle _ now h1, advancePhDown_idle _ now h1]

theorem applyDirective_locked (st : DoseSt) (now : Nat) (d : Directive)
    (h : isLockedOut now st = true) :
    applyDirective st now d = { st with lightPwm := controlGrowLight d.light } := by
  simp only [applyDirective]
  have h' : isLockedOut now { st with lightPwm := controlGrowLight d.light } = true := h
  rw [if_pos h']

theorem applyDirective_phUp_start (st : DoseSt) (now : Nat) (d : Directive)
    (hnl : ¬ isLockedOut now st = true) (hup : d.phUp = true) (hidle : st.phState = PH_IDLE) :
    applyDirective st now d
      = { st with lightPwm := controlGrowLight d.light, phState := PH_DOSING_UP,
                  phStateChangeTime := now % U32, phUpPin := true,
                  globalLockoutUntil := (now + d.lockoutMs) % U32 } := by
  simp only [applyDirective]
  have h0 : ¬ isLockedOut now { st with lightPwm := controlGrowLight d.light } = true := hnl
  have h1 : d.phUp = true
      ∧ ({ st with lightPwm := controlGrowLight d.light } : DoseSt).phState = PH_IDLE :=
    ⟨hup, hidle⟩
  rw [if_neg h0, if_pos h1]

theorem applyDirective_phDn_start (st : DoseSt) (now : Nat) (d : Directive)
    (hnl : ¬ isLockedOut now st = true)
    (hnup : ¬ (d.phUp = true ∧ st.phState = PH_IDLE))
    (hdn : d.phDn = true) (hidle : st.phState = PH_IDLE) :
    applyDirective st now d
      = { st with lightPwm := controlGrowLight d.light, phState := PH_DOSING_DOWN,
                  phStateChangeTime := now % U32, phDownPin := true,
                  globalLockoutUntil := (now + d.lockoutMs) % U32 } := by
  simp only [applyDirective]
  have h0 : ¬ isLockedOut now { st with lightPwm := controlGrowLight d.light } = true := hnl
  have h1 : ¬ (d.phUp = true
      ∧ ({ st with lightPwm := controlGrowLight d.light } : DoseSt).phState = PH_IDLE) := hnup
  have h2 : d.phDn = true
      ∧ ({ st with lightPwm := controlGrowLight d.light } : DoseSt).phState = PH_IDLE :=
    ⟨hdn, hidle⟩
  rw [if_neg h0, if_neg h1, if_pos h2]

theorem applyDirective_ppm_start (st : DoseSt) (now : Nat) (d : Directive)
    (hnl : ¬ isLockedOut now st = true)
    (hnup : ¬ (d.phUp = true ∧ st.phState = PH_IDLE))
    (hndn : ¬ (d.phDn = true ∧ st.phState = PH_IDLE))
    (ha : d.ppmA = true) (hb : d.ppmB = true) (hidle : st.ppmState = PPM_IDLE) :
    applyDirective st now d
      = { st with lightPwm := controlGrowLight d.light, ppmState := PPM_DOSING_A,
                  ppmStateChangeTime := now % U32, ppmAPin := true,
                  globalLockoutUntil :=
                    (now + dosingDuration + delayDuration + dosingDuration + d.lockoutMs)
                      % U32 } := by
  simp only [applyDirective]
  have h0 : ¬ isLockedOut now { st with lightPwm := controlGrowLight d.light } = true := hnl
  have h1 : ¬ (d.phUp = true
      ∧ ({ st with lightPwm := controlGrowLight d.light } : DoseSt).phState = PH_IDLE) := hnup
  have h2 : ¬ (d.phDn = true
      ∧ ({ st with lightPwm := controlGrowLight d.light } : DoseSt).phState = PH_IDLE) := hndn
  have h3 : d.ppmA = true ∧ d.ppmB = true
      ∧ ({ st with lightPwm := controlGrowLight d.light } : DoseSt).ppmState = PPM_IDLE :=
    ⟨ha, hb, hidle⟩
  rw [if_neg h0, if_neg h1, if_neg h2, if_pos h3]

theorem applyDirective_no_start (st : DoseSt) (now : Nat) (d : Directive)
    (hnl : ¬ isLockedOut now st = true)
    (hnup : ¬ (d.phUp = true ∧ st.phState = PH_IDLE))
    (hndn : ¬ (d.phDn = true ∧ st.phState = PH_IDLE))
    (hnab : ¬ (d.ppmA = true ∧ d.ppmB = true ∧ st.ppmState = PPM_IDLE)) :
    applyDirective st now d = { st with lightPwm := controlGrowLight d.light } := by
  simp only [applyDirective]
  have h0 : ¬ isLockedOut now { st with lightPwm := controlGrowLight d.light } = true := hnl
  have h1 : ¬ (d.phUp = true
      ∧ ({ st with lightPwm := controlGrowLight d.light } : DoseSt).phState = PH_IDLE) := hnup
  have h2 : ¬ (d.phDn = true
      ∧ ({ st with lightPwm := controlGrowLight d.light } : DoseSt).phState = PH_IDLE) := hndn
  have h3 : ¬ (d.ppmA = true ∧ d.ppmB = true
      ∧ ({ st with lightPwm := controlGrowLight d.light } : DoseSt).ppmState = PPM_IDLE) := hnab
  rw [if_neg h0, if_neg h1, if_neg h2, if_neg h3]

theorem networkStep_locked (st : DoseSt) (tApp : Nat) (code : Int)
    (parsed : Option RespDoc) (hl : isLockedOut tApp st = true) :
    ∃ x, networkStep st tApp code parsed = { st with lightPwm := x } := by
  unfold networkStep
  split
  · cases parsed with
    | none => exact ⟨st.lightPwm, rfl⟩
    | some doc =>
      exact ⟨controlGrowLight (decodeDirective doc).light,
        applyDirective_locked st tApp (decodeDirective doc) hl⟩
  · exact ⟨st.lightPwm, rfl⟩

/-! ## CrossInv constructors -/

theorem crossInv_of_both_idle {S Q : Nat} {st : DoseSt} (t : Nat)
    (hph : st.phState = PH_IDLE) (hppm : st.ppmState = PPM_IDLE)
    (hlock : st.globalLockoutUntil < U32) : CrossInv S Q st t := by
  unfold CrossInv
  refine ⟨hlock, fun hcon => absurd hph hcon, fun hcon => ?_, fun hcon => ?_, fun hcon => ?_⟩
  all_goals rw [hppm] at hcon; cases hcon

theorem crossInv_of_ph_active {S Q : Nat} {st : DoseSt} (t : Nat)
    (hppm : st.ppmState = PPM_IDLE) (hlock : st.globalLockoutUntil < U32)
    (h1 : st.phStateChangeTime ≤ t)
    (h2 : st.phStateChangeTime + dosingDuration + Q ≤ st.globalLockoutUntil) :
    CrossInv S Q st t := by
  unfold CrossInv
  refine ⟨hlock, fun _ => ⟨hppm, h1, h2⟩, fun hcon => ?_, fun hcon => ?_, fun hcon => ?_⟩
  all_goals rw [hppm] at hcon; cases hcon

theorem crossInv_of_A {S Q : Nat} {st : DoseSt} (t : Nat)
    (hA : st.ppmState = PPM_DOSING_A) (hph : st.phState = PH_IDLE)
    (hlock : st.globalLockoutUntil < U32)
    (h1 : st.ppmStateChangeTime ≤ t) (h2 : t < st.ppmStateChangeTime + dosingDuration + Q)
    (h3 : st.ppmStateChangeTime + ppmSeqTotal + 2 * S + Q ≤ st.globalLockoutUntil) :
    CrossInv S Q st t := by
  unfold CrossInv
  refine ⟨hlock, fun hcon => absurd hph hcon, fun _ => ⟨hph, h1, h2, h3⟩,
    fun hcon => ?_, fun hcon => ?_⟩
  all_goals rw [hA] at hcon; cases hcon

theorem crossInv_of_D {S Q : Nat} {st : DoseSt} (t : Nat)
    (hD : st.ppmState = PPM_DELAYING) (hph : st.phState = PH_IDLE)
    (hlock : st.globalLockoutUntil < U32)
    (h1 : st.ppmStateChangeTime ≤ t) (h2 : t < st.ppmStateChangeTime + delayDuration + Q)
    (h3 : st.ppmStateChangeTime + delayDuration + dosingDuration + S + Q
        ≤ st.globalLockoutUntil) :
    CrossInv S Q st t := by
  unfold CrossInv
  refine ⟨hlock, fun hcon => absurd hph hcon, fun hcon => ?_,
    fun _ => ⟨hph, h1, h2, h3⟩, fun hcon => ?_⟩
  all_goals rw [hD] at hcon; cases hcon

theorem crossInv_of_B {S Q : Nat} {st : DoseSt} (t : Nat)
    (hB : st.ppmState = PPM_DOSING_B) (hph : st.phState = PH_IDLE)
    (hlock : st.globalLockoutUntil < U32)
    (h1 : st.ppmStateChangeTime ≤ t) (h2 : t < st.ppmStateChangeTime + dosingDuration + Q)
    (h3 : st.ppmStateChangeTime + dosingDuration + Q ≤ st.globalLockoutUntil) :
    CrossInv S Q st t := by
  unfold CrossInv
  refine ⟨hlock, fun hcon => absurd hph hcon, fun hcon => ?_, fun hcon => ?_,
    fun _ => ⟨hph, h1, h2, h3⟩⟩
  all_goals rw [hB] at hcon; cases hcon

theorem tick_resp_none (st : DoseSt) (k : Tick) (hcon : k.connected = true)
    (hr : k.resp = none) : tick st k = advance st k.tAdv := by
  unfold tick
  simp only [hcon, if_true, hr]

theorem tick_resp_some (st : DoseSt) (k : Tick) (hcon : k.connected = true)
    {code : Int} {parsed : Option RespDoc} (hr : k.resp = some (code, parsed)) :
    tick st k = networkStep (advance st k.tAdv) k.tApp code parsed := by
  unfold tick
  simp only [hcon, if_true, hr]

/-- The directive step applied in a state with both machines idle
re-establishes the cross-machine invariant, given the per-directive
lockout conditions. -/
theorem crossInv_networkStep_bothIdle {S Q : Nat} {st : DoseSt} {tApp : Nat}
    {code : Int} {parsed : Option RespDoc}
    (hU : tApp < U32) (hph : st.phState = PH_IDLE) (hppm : st.ppmState = PPM_IDLE)
    (hlock : st.globalLockoutUntil < U32)
    (hdir : ∀ doc, parsed = some doc →
        dosingDuration + Q ≤ (decodeDirective doc).lockoutMs
          ∧ 2 * S + Q ≤ (decodeDirective doc).lockoutMs
          ∧ tApp + ppmSeqTotal + (decodeDirective doc).lockoutMs < U32) :
    CrossInv S Q (networkStep st tApp code parsed) tApp := by
  have hDpos : 0 < dosingDuration := by decide
  unfold networkStep
  split
  · cases parsed with
    | none => exact crossInv_of_both_idle tApp hph hppm hlock
    | some doc =>
      show CrossInv S Q (applyDirective st tApp (decodeDirective doc)) tApp
      obtain ⟨hd1, hd2, hd3⟩ := hdir doc rfl
      by_cases hl : isLockedOut tApp st = true
      · rw [applyDirective_locked st tApp (decodeDirective doc) hl]
        exact crossInv_of_both_idle tApp hph hppm hlock
      · have e1 : tApp % U32 = tApp := Nat.mod_eq_of_lt hU
        by_cases hup : (decodeDirective doc).phUp = true
        · rw [applyDirective_phUp_start st tApp (decodeDirective doc) hl hup hph]
          have e2 : (tApp + (decodeDirective doc).lockoutMs) % U32
              = tApp + (decodeDirective doc).lockoutMs :=
            Nat.mod_eq_of_lt (by unfold ppmSeqTotal at hd3; omega)
          rw [e1, e2]
          refine crossInv_of_ph_active tApp hppm ?_ (le_refl tApp) ?_
          · show tApp + (decodeDirective doc).lockoutMs < U32
            unfold ppmSeqTotal at hd3
            omega
          · show tApp + dosingDuration + Q ≤ tApp + (decodeDirective doc).lockoutMs
            omega
        · by_cases hdn : (decodeDirective doc).phDn = true
          · rw [applyDirective_phDn_start st tApp (decodeDirective doc) hl
              (fun hc => hup hc.1) hdn hph]
            have e2 : (tApp + (decodeDirective doc).lockoutMs) % U32
                = tApp + (decodeDirective doc).lockoutMs :=
              Nat.mod_eq_of_lt (by unfold ppmSeqTotal at hd3; omega)
            rw [e1, e2]
            refine crossInv_of_ph_active tApp hppm ?_ (le_refl tApp) ?_
            · show tApp + (decodeDirective doc).lockoutMs < U32
              unfold ppmSeqTotal at hd3
              omega
            · show tApp + dosingDuration + Q ≤ tApp + (decodeDirective doc).lockoutMs
              omega
          · by_cases hab : (decodeDirective doc).ppmA = true
                ∧ (decodeDirective doc).ppmB = true
            · rw [applyDirective_ppm_start st tApp (decodeDirective doc) hl
                (fun hc => hup hc.1) (fun hc => hdn hc.1) hab.1 hab.2 hppm]
              have e2 : (tApp + dosingDuration + delayDuration + dosingDuration
                    + (decodeDirective doc).lockoutMs) % U32
                  = tApp + dosingDuration + delayDuration + dosingDuration
                    + (decodeDirective doc).lockoutMs :=
                Nat.mod_eq_of_lt (by unfold ppmSeqTotal at hd3; omega)
              rw [e1, e2]
              refine crossInv_of_A tApp rfl hph ?_ (le_refl tApp) ?_ ?_
              · show tApp + dosingDuration + delayDuration + dosingDuration
                    + (decodeDirective doc).lockoutMs < U32
                unfold ppmSeqTotal at hd3
                omega
              · show tApp < tApp + dosingDuration + Q
                omega
              · show tApp + ppmSeqTotal + 2 * S + Q
                    ≤ tApp + dosingDuration + delayDuration + dosingDuration
                      + (decodeDirective doc).lockoutMs
                unfold ppmSeqTotal
                omega
            · rw [applyDirective_no_start st tApp (decodeDirective doc) hl
                (fun hc => hup hc.1) (fun hc => hdn hc.1) (fun hc => hab ⟨hc.1, hc.2.1⟩)]
              exact crossInv_of_both_idle tApp hph hppm hlock
  · exact crossInv_of_both_idle tApp hph hppm hlock

/-- One connected, chain-regular tick preserves the cross-machine
invariant, given the per-directive lockout conditions. -/
theorem crossInv_tick {P Q : Nat} {st : DoseSt} {k : Tick} {t : Nat}
    (hcon : k.connected = true) (hdirk : dirOk P Q k = true)
    (h1 : t ≤ k.tAdv) (h2 : k.tAdv ≤ t + P) (h3 : k.tAdv ≤ k.tApp)
    (h4 : k.tApp ≤ k.tAdv + Q) (h5 : k.tApp < U32)
    (hInv : CrossInv (P + Q) Q st t) :
    CrossInv (P + Q) Q (tick st k) k.tApp := by
  have hAdvU : k.tAdv < U32 := lt_of_le_of_lt h3 h5
  have hDpos : 0 < dosingDuration := by decide
  have hGpos : 0 < delayDuration := by decide
  have hdir : ∀ (code : Int) (doc : RespDoc), k.resp = some (code, some doc) →
      dosingDuration + Q ≤ (decodeDirective doc).lockoutMs
        ∧ 2 * (P + Q) + Q ≤ (decodeDirective doc).lockoutMs
        ∧ k.tApp + ppmSeqTotal + (decodeDirective doc).lockoutMs < U32 := by
    intro code doc hr
    unfold dirOk at hdirk
    rw [hr] at hdirk
    simp only [Bool.and_eq_true, decide_eq_true_eq] at hdirk
    exact ⟨hdirk.1.1, hdirk.1.2, hdirk.2⟩
  unfold CrossInv at hInv
  obtain ⟨hlockU, hphC, hAC, hDC, hBC⟩ := hInv
  by_cases hph : st.phState = PH_IDLE
  · have hAdvEq : advance st k.tAdv = advancePpm st k.tAdv := advance_eq_advancePpm st k.tAdv hph
    cases hppm : st.ppmState with
    | PPM_IDLE =>
      have hAdv : advance st k.tAdv = st := advance_both_idle st k.tAdv hph hppm
      cases hr : k.resp with
      | none =>
        rw [tick_resp_none st k hcon hr, hAdv]
        exact crossInv_of_both_idle k.tApp hph hppm hlockU
      | some cp =>
        obtain ⟨code, parsed⟩ := cp
        rw [tick_resp_some st k hcon hr, hAdv]
        exact crossInv_networkStep_bothIdle h5 hph hppm hlockU
          (fun doc hpd => hdir code doc (by rw [hr, hpd]))
    | PPM_DOSING_A =>
      obtain ⟨-, hc1, hc2, hc3⟩ := hAC hppm
      have hcle : st.ppmStateChangeTime ≤ k.tAdv := le_trans hc1 h1
      have hw : wsub k.tAdv st.ppmStateChangeTime = k.tAdv - st.ppmStateChangeTime :=
        wsub_eq_sub hcle (by omega)
      by_cases hf : dosingDuration ≤ wsub k.tAdv st.ppmStateChangeTime
      · -- A fires → DELAYING at tAdv
        have hAdv : advance st k.tAdv
            = { st with ppmAPin := false, ppmState := PPM_DELAYING,
                        ppmStateChangeTime := k.tAdv % U32 } :=
          hAdvEq.trans (advancePpm_A_fire st k.tAdv hppm hf)
        rw [hw] at hf
        have hlk : k.tApp < st.globalLockoutUntil := by
          unfold ppmSeqTotal at hc3
          omega
        have hlkB : isLockedOut k.tApp
            ({ st with ppmAPin := false, ppmState := PPM_DELAYING,
                       ppmStateChangeTime := k.tAdv } : DoseSt) = true := by
          unfold isLockedOut
          rw [Nat.mod_eq_of_lt h5]
          exact decide_eq_true hlk
        cases hr : k.resp with
        | none =>
          rw [tick_resp_none st k hcon hr, hAdv, Nat.mod_eq_of_lt hAdvU]
          refine crossInv_of_D k.tApp rfl hph hlockU h3 ?_ ?_
          · show k.tApp < k.tAdv + delayDuration + Q
            omega
          · show k.tAdv + delayDuration + dosingDuration + (P + Q) + Q
                ≤ st.globalLockoutUntil
            unfold ppmSeqTotal at hc3
            omega
        | some cp =>
          obtain ⟨code, parsed⟩ := cp
          rw [tick_resp_some st k hcon hr, hAdv, Nat.mod_eq_of_lt hAdvU]
          obtain ⟨x, hx⟩ := networkStep_locked _ k.tApp code parsed hlkB
          rw [hx]
          refine crossInv_of_D k.tApp rfl hph hlockU h3 ?_ ?_
          · show k.tApp < k.tAdv + delayDuration + Q
            omega
          · show k.tAdv + delayDuration + dosingDuration + (P + Q) + Q
                ≤ st.globalLockoutUntil
            unfold ppmSeqTotal at hc3
            omega
      · -- still DOSING_A
        have hAdv : advance st k.tAdv = st := hAdvEq.trans (advancePpm_A_hold st k.tAdv hppm hf)
        rw [hw] at hf
        have hlk : k.tApp < st.globalLockoutUntil := by
          unfold ppmSeqTotal at hc3
          omega
        have hlkB : isLockedOut k.tApp st = true := by
          unfold isLockedOut
          rw [Nat.mod_eq_of_lt h5]
          exact decide_eq_true hlk
        cases hr : k.resp with
        | none =>
          rw [tick_resp_none st k hcon hr, hAdv]
          refine crossInv_of_A k.tApp hppm hph hlockU (le_trans hc1 (le_trans h1 h3)) ?_ hc3
          show k.tApp < st.ppmStateChangeTime + dosingDuration + Q
          omega
        | some cp =>
          obtain ⟨code, parsed⟩ := cp
          rw [tick_resp_some st k hcon hr, hAdv]
          obtain ⟨x, hx⟩ := networkStep_locked st k.tApp code parsed hlkB
          rw [hx]
          refine crossInv_of_A k.tApp hppm hph hlockU (le_trans hc1 (le_trans h1 h3)) ?_ hc3
          show k.tApp < st.ppmStateChangeTime + dosingDuration + Q
          omega
    | PPM_DELAYING =>
      obtain ⟨-, hc1, hc2, hc3⟩ := hDC hppm
      have hcle : st.ppmStateChangeTime ≤ k.tAdv := le_trans hc1 h1
      have hw : wsub k.tAdv st.ppmStateChangeTime = k.tAdv - st.ppmStateChangeTime :=
        wsub_eq_sub hcle (by omega)
      by_cases hf : delayDuration ≤ wsub k.tAdv st.ppmStateChangeTime
      · -- DELAYING fires → DOSING_B at tAdv
        have hAdv : advance st k.tAdv
            = { st with ppmBPin := true, ppmState := PPM_DOSING_B,
                        ppmStateChangeTime := k.tAdv % U32 } :=
          hAdvEq.trans (advancePpm_D_fire st k.tAdv hppm hf)
        rw [hw] at hf
        have hlk : k.tApp < st.globalLockoutUntil := by omega
        have hlkB : isLockedOut k.tApp
            ({ st with ppmBPin := true, ppmState := PPM_DOSING_B,
                       ppmStateChangeTime := k.tAdv } : DoseSt) = true := by
          unfold isLockedOut
          rw [Nat.mod_eq_of_lt h5]
          exact decide_eq_true hlk
        cases hr : k.resp with
        | none =>
          rw [tick_resp_none st k hcon hr, hAdv, Nat.mod_eq_of_lt hAdvU]
          refine crossInv_of_B k.tApp rfl hph hlockU h3 ?_ ?_
          · show k.tApp < k.tAdv + dosingDuration + Q
            omega
          · show k.tAdv + dosingDuration + Q ≤ st.globalLockoutUntil
            omega
        | some cp =>
          obtain ⟨code, parsed⟩ := cp
          rw [tick_resp_some st k hcon hr, hAdv, Nat.mod_eq_of_lt hAdvU]
          obtain ⟨x, hx⟩ := networkStep_locked _ k.tApp code parsed hlkB
          rw [hx]
          refine crossInv_of_B k.tApp rfl hph hlockU h3 ?_ ?_
          · show k.tApp < k.tAdv + dosingDuration + Q
            omega
          · show k.tAdv + dosingDuration + Q ≤ st.globalLockoutUntil
            omega
      · -- still DELAYING
        have hAdv : advance st k.tAdv = st := hAdvEq.trans (advancePpm_D_hold st k.tAdv hppm hf)
        rw [hw] at hf
        have hlk : k.tApp < st.globalLockoutUntil := by omega
        have hlkB : isLockedOut k.tApp st = true := by
          unfold isLockedOut
          rw [Nat.mod_eq_of_lt h5]
          exact decide_eq_true hlk
        cases hr : k.resp with
        | none =>
          rw [tick_resp_none st k hcon hr, hAdv]
          refine crossInv_of_D k.tApp hppm hph hlockU (le_trans hc1 (le_trans h1 h3)) ?_ hc3
          show k.tApp < st.ppmStateChangeTime + delayDuration + Q
          omega
        | some cp =>
          obtain ⟨code, parsed⟩ := cp
          rw [tick_resp_some st k hcon hr, hAdv]
          obtain ⟨x, hx⟩ := networkStep_locked st k.tApp code parsed hlkB
          rw [hx]
          refine crossInv_of_D k.tApp hppm hph hlockU (le_trans hc1 (le_trans h1 h3)) ?_ hc3
          show k.tApp < st.ppmStateChangeTime + delayDuration + Q
          omega
    | PPM_DOSING_B =>
      obtain ⟨-, hc1, hc2, hc3⟩ := hBC hppm
      have hcle : st.ppmStateChangeTime ≤ k.tAdv := le_trans hc1 h1
      have hw : wsub k.tAdv st.ppmStateChangeTime = k.tAdv - st.ppmStateChangeTime :=
        wsub_eq_sub hcle (by omega)
      by_cases hf : dosingDuration ≤ wsub k.tAdv st.ppmStateChangeTime
      · -- DOSING_B fires → IDLE: both machines idle afterwards
        have hAdv : advance st k.tAdv = { st with ppmBPin := false, ppmState := PPM_IDLE } :=
          hAdvEq.trans (advancePpm_B_fire st k.tAdv hppm hf)
        cases hr : k.resp with
        | none =>
          rw [tick_resp_none st k hcon hr, hAdv]
          exact crossInv_of_both_idle k.tApp hph rfl hlockU
        | some cp =>
          obtain ⟨code, parsed⟩ := cp
          rw [tick_resp_some st k hcon hr, hAdv]
          exact crossInv_networkStep_bothIdle h5 hph rfl hlockU
            (fun doc hpd => hdir code doc (by rw [hr, hpd]))
      · -- still DOSING_B
        have hAdv : advance st k.tAdv = st := hAdvEq.trans (advancePpm_B_hold st k.tAdv hppm hf)
        rw [hw] at hf
        have hlk : k.tApp < st.globalLockoutUntil := by omega
        have hlkB : isLockedOut k.tApp st = true := by
          unfold isLockedOut
          rw [Nat.mod_eq_of_lt h5]
          exact decide_eq_true hlk
        cases hr : k.resp with
        | none =>
          rw [tick_resp_none st k hcon hr, hAdv]
          refine crossInv_of_B k.tApp hppm hph hlockU (le_trans hc1 (le_trans h1 h3)) ?_ hc3
          show k.tApp < st.ppmStateChangeTime + dosingDuration + Q
          omega
        | some cp =>
          obtain ⟨code, parsed⟩ := cp
          rw [tick_resp_some st k hcon hr, hAdv]
          obtain ⟨x, hx⟩ := networkStep_locked st k.tApp code parsed hlkB
          rw [hx]
          refine crossInv_of_B k.tApp hppm hph hlockU (le_trans hc1 (le_trans h1 h3)) ?_ hc3
          show k.tApp < st.ppmStateChangeTime + dosingDuration + Q
          omega
  · -- pH machine active
    obtain ⟨hppmI, hc1, hc2⟩ := hphC hph
    have hAdvPpm : advancePpm st k.tAdv = st := advancePpm_idle st k.tAdv hppmI
    have hcle : st.phStateChangeTime ≤ k.tAdv := le_trans hc1 h1
    have hw : wsub k.tAdv st.phStateChangeTime = k.tAdv - st.phStateChangeTime :=
      wsub_eq_sub hcle (by omega)
    by_cases hf : dosingDuration ≤ wsub k.tAdv st.phStateChangeTime
    · -- the pH dose completes at this tick's advance
      cases hcase : st.phState with
      | PH_IDLE => exact absurd hcase hph
      | PH_DOSING_UP =>
        have hAdv : advance st k.tAdv = { st with phUpPin := false, phState := PH_IDLE } := by
          unfold advance
          rw [hAdvPpm, advancePhUp_fire st k.tAdv hcase hf]
          exact advancePhDown_idle _ k.tAdv rfl
        cases hr : k.resp with
        | none =>
          rw [tick_resp_none st k hcon hr, hAdv]
          exact crossInv_of_both_idle k.tApp rfl hppmI hlockU
        | some cp =>
          obtain ⟨code, parsed⟩ := cp
          rw [tick_resp_some st k hcon hr, hAdv]
          exact crossInv_networkStep_bothIdle h5 rfl hppmI hlockU
            (fun doc hpd => hdir code doc (by rw [hr, hpd]))
      | PH_DOSING_DOWN =>
        have hAdv : advance st k.tAdv = { st with phDownPin := false, phState := PH_IDLE } := by
          unfold advance
          rw [hAdvPpm, advancePhUp_notUp st k.tAdv (by rw [hcase]; intro hcon; cases hcon),
            advancePhDown_fire st k.tAdv hcase hf]
        cases hr : k.resp with
        | none =>
          rw [tick_resp_none st k hcon hr, hAdv]
          exact crossInv_of_both_idle k.tApp rfl hppmI hlockU
        | some cp =>
          obtain ⟨code, parsed⟩ := cp
          rw [tick_resp_some st k hcon hr, hAdv]
          exact crossInv_networkStep_bothIdle h5 rfl hppmI hlockU
            (fun doc hpd => hdir code doc (by rw [hr, hpd]))
    · -- the pH dose is still running: the lockout still covers it
      have hAdv : advance st k.tAdv = st := by
        unfold advance
        rw [hAdvPpm, advancePhUp_hold st k.tAdv hf, advancePhDown_hold st k.tAdv hf]
      rw [hw] at hf
      have hlk : k.tApp < st.globalLockoutUntil := by omega
      have hlkB : isLockedOut k.tApp st = true := by
        unfold isLockedOut
        rw [Nat.mod_eq_of_lt h5]
        exact decide_eq_true hlk
      cases hr : k.resp with
      | none =>
        rw [tick_resp_none st k hcon hr, hAdv]
        exact crossInv_of_ph_active k.tApp hppmI hlockU (le_trans hc1 (le_trans h1 h3)) hc2
      | some cp =>
        obtain ⟨code, parsed⟩ := cp
        rw [tick_resp_some st k hcon hr, hAdv]
        obtain ⟨x, hx⟩ := networkStep_locked st k.tApp code parsed hlkB
        rw [hx]
        exact crossInv_of_ph_active k.tApp hppmI hlockU (le_trans hc1 (le_trans h1 h3)) hc2

theorem all_take {p : Tick → Bool} {ks : List Tick} {n : Nat} (h : ks.all p = true) :
    (ks.take n).all p = true := by
  rw [List.all_eq_true] at h ⊢
  exact fun k hk => h k (List.take_subset n ks hk)

/-- Running a connected, chain-regular, directive-conditioned trace
preserves the cross-machine invariant. -/
theorem crossInv_runFrom {P Q : Nat} :
    ∀ (ks : List Tick) (st : DoseSt) (t : Nat),
      allConnected ks = true → ks.all (dirOk P Q) = true → chainOk P Q t ks = true →
      CrossInv (P + Q) Q st t →
      CrossInv (P + Q) Q (runFrom st ks) (lastAnchor t ks) := by
  intro ks
  induction ks with
  | nil => intro st t _ _ _ hInv; exact hInv
  | cons k ks ih =>
    intro st t hcon hdir hch hInv
    rw [chainOk_cons] at hch
    obtain ⟨c1, c2, c3, c4, c5, crest⟩ := hch
    rw [allConnected, List.all_eq_true] at hcon
    have hkcon : k.connected = true := hcon k (List.mem_cons_self k ks)
    have hcon' : allConnected ks = true := by
      rw [allConnected, List.all_eq_true]
      exact fun x hx => hcon x (List.mem_cons_of_mem k hx)
    rw [List.all_cons, Bool.and_eq_true] at hdir
    exact ih (tick st k) k.tApp hcon' hdir.2 crest
      (crossInv_tick hkcon hdir.1 c1 c2 c3 c4 c5 hInv)

/-! ## C10 — cross-machine exclusivity -/

/-- C10 counterexample: the claim's hypothesis only bounds the
`lockout_ms` used at pH starts, and even `lockout_ms = dosingDuration`
(2000, satisfying it) does not prevent overlap.  A PPM sequence started
at `t = 0` with `lockout_ms = 0` arms the lockout until 6000; a 5-second
cycle gap delays the A→DELAYING transition to 7000, so at `t = 8000` —
lockout long expired but the sequence mid-flight — a pH-up directive
with `lockout_ms = 2000` starts the pH machine; at `t = 9000` the
DELAYING→DOSING_B edge fires while the pH dose still runs: both
machines are non-IDLE and the PH_UP and PPM_B pump pins are HIGH
simultaneously. -/
theorem cross_machine_exclusivity_counterexample :
    (run [⟨true, 0, 0, some (200, some ⟨none, none, none, some true, some true, some 0⟩)⟩,
          ⟨true, 7000, 7000, none⟩,
          ⟨true, 8000, 8000, some (200, some ⟨none, some true, none, none, none, some 2000⟩)⟩,
          ⟨true, 9000, 9000, none⟩]).phUpPin = true
      ∧ (run [⟨true, 0, 0, some (200, some ⟨none, none, none, some true, some true, some 0⟩)⟩,
          ⟨true, 7000, 7000, none⟩,
          ⟨true, 8000, 8000, some (200, some ⟨none, some true, none, none, none, some 2000⟩)⟩,
          ⟨true, 9000, 9000, none⟩]).ppmBPin = true
      ∧ (run [⟨true, 0, 0, some (200, some ⟨none, none, none, some true, some true, some 0⟩)⟩,
          ⟨true, 7000, 7000, none⟩,
          ⟨true, 8000, 8000, some (200, some ⟨none, some true, none, none, none, some 2000⟩)⟩,
          ⟨true, 9000, 9000, none⟩]).phState = PH_DOSING_UP
      ∧ (run [⟨true, 0, 0, some (200, some ⟨none, none, none, some true, some true, some 0⟩)⟩,
          ⟨true, 7000, 7000, none⟩,
          ⟨true, 8000, 8000, some (200, some ⟨none, some true, none, none, none, some 2000⟩)⟩,
          ⟨true, 9000, 9000, none⟩]).ppmState = PPM_DOSING_B
      ∧ dosingDuration
          ≤ (decodeDirective ⟨none, some true, none, none, none, some 2000⟩).lockoutMs := by
  decide

/-- C10 amended: along connected traces whose cycle period is bounded
by `P` and whose within-cycle clock advance is bounded by `Q`, if EVERY
received directive's decoded `lockout_ms` is at least
`dosingDuration + Q` and at least `2(P+Q) + Q` (and arming it does not
wrap the 32-bit deadline), then in every reachable state at most one of
the two dosing machines is non-IDLE — and hence, by the pin/state
correspondence, a pH pump pin and a PPM pump pin are never HIGH
simultaneously.  Each start arms the lockout long enough to cover its
own activity including all transition slack. -/
theorem cross_machine_exclusivity (P Q : Nat) (ks : List Tick)
    (hcon : allConnected ks = true) (hch : chainOk P Q 0 ks = true)
    (hdir : ks.all (dirOk P Q) = true) (n : Nat) :
    ((run (ks.take n)).phState = PH_IDLE ∨ (run (ks.take n)).ppmState = PPM_IDLE)
      ∧ ¬(((run (ks.take n)).phUpPin = true ∨ (run (ks.take n)).phDownPin = true)
            ∧ ((run (ks.take n)).ppmAPin = true ∨ (run (ks.take n)).ppmBPin = true)) := by
  have hInv : CrossInv (P + Q) Q (runFrom init (ks.take n)) (lastAnchor 0 (ks.take n)) :=
    crossInv_runFrom (ks.take n) init 0 (allConnected_take hcon) (all_take hdir)
      (chainOk_take ks 0 n hch) (crossInv_of_both_idle 0 rfl rfl (by decide))
  unfold CrossInv at hInv
  obtain ⟨-, hphC, -, -, -⟩ := hInv
  obtain ⟨hp1, hp2, hp3, hp4⟩ := pinsInv_run (ks.take n)
  have hexcl : (run (ks.take n)).phState = PH_IDLE ∨ (run (ks.take n)).ppmState = PPM_IDLE := by
    by_cases h : (run (ks.take n)).phState = PH_IDLE
    · exact Or.inl h
    · exact Or.inr (hphC h).1
  refine ⟨hexcl, ?_⟩
  rintro ⟨hpin1, hpin2⟩
  have hphne : (run (ks.take n)).phState ≠ PH_IDLE := by
    rcases hpin1 with h | h
    · rw [hp1] at h
      rw [h]
      intro hcon'
      cases hcon'
    · rw [hp2] at h
      rw [h]
      intro hcon'
      cases hcon'
  have hppmI : (run (ks.take n)).ppmState = PPM_IDLE := (hphC hphne).1
  rcases hpin2 with h | h
  · rw [hp3] at h
    rw [hppmI] at h
    cases h
  · rw [hp4] at h
    rw [hppmI] at h
    cases h

/-- C10 witness: a two-cycle connected trace (period bound 100 ms,
single clock read per cycle) whose directive carries the default
120000 ms lockout satisfies every hypothesis; after both cycles at most
one machine is active. -/
theorem cross_machine_exclusivity_witness :
    (run (([⟨true, 50, 50, some (200, some ⟨none, some true, none, none, none, some 120000⟩)⟩,
            ⟨true, 150, 150, none⟩] : List Tick).take 2)).phState = PH_IDLE
      ∨ (run (([⟨true, 50, 50, some (200, some ⟨none, some true, none, none, none,
            some 120000⟩)⟩, ⟨true, 150, 150, none⟩] : List Tick).take 2)).ppmState
          = PPM_IDLE :=
  (cross_machine_exclusivity 100 0
      [⟨true, 50, 50, some (200, some ⟨none, some true, none, none, none, some 120000⟩)⟩,
       ⟨true, 150, 150, none⟩]
      (by decide) (by decide) (by decide) 2).1

end Planterbox
